import Mathlib

/-!
Verification of the MongoDB HTTP bridge (`mongodb_bridge.py`).

The development shallowly embeds the bridge's pure logic: the string surgery
that derives a direct per-shard connection string from a shard record and the
primary connection URI, the extended-JSON decode/encode pair
(`parse_json_extended` / `serialize_response`, backed by `bson.json_util` in
its default legacy output mode), the request handlers (query, insert, shard
listing, shard fan-out endpoints), the API-key decorator and the route table.
Network and database effects are modelled as oracles: a handler receives
functions describing what the primary client and each per-shard client would
return (success payload, or the raised driver error message), and produces
the HTTP status, the JSON body and, for shard probes, the trace of
connection open/close events.
-/

set_option maxRecDepth 8192

namespace MongoBridge

/-! ## String helpers (the Python `str` operations the bridge uses) -/
/-- Characters of `s.split(sep)[0]` for a one-character separator: the
longest prefix before the first occurrence of `c` (everything when `c` does
not occur). -/
def takeUntilCharList (c : Char) : List Char → List Char
  | [] => []
  | x :: xs => if x = c then [] else x :: takeUntilCharList c xs

/-- Characters after the first occurrence of `c` (empty when `c` does not
occur); this is `s.split(c, 1)[1]` when `c` occurs in `s`. -/
def afterFirstCharList (c : Char) : List Char → List Char
  | [] => []
  | x :: xs => if x = c then xs else afterFirstCharList c xs

/-- Python `s.split(sep)[0]` for a one-character separator. -/
def takeUntilChar (c : Char) (s : String) : String :=
  String.mk (takeUntilCharList c s.toList)

/-- The suffix of `s` after the first occurrence of `c`. -/
def afterFirstChar (c : Char) (s : String) : String :=
  String.mk (afterFirstCharList c s.toList)

/-- Python `c in s` for a single character. -/
def strContainsChar (c : Char) (s : String) : Bool :=
  decide (c ∈ s.toList)

/-- Python `s.replace("mongodb://", "")` on character lists: removes every
leftmost non-overlapping occurrence of the scheme text. -/
def replaceMongodbChars : List Char → List Char
  | [] => []
  | c :: cs =>
    if (c :: cs).take 10 = "mongodb://".toList then
      replaceMongodbChars ((c :: cs).drop 10)
    else
      c :: replaceMongodbChars cs
termination_by l => l.length
decreasing_by
  · simp only [List.length_drop, List.length_cons]
    omega
  · simp

/-- Python `s.replace("mongodb://", "")` on strings. -/
def replaceMongodb (s : String) : String :=
  String.mk (replaceMongodbChars s.toList)

/-! ## Shard connection-string derivation

Mirrors the block repeated in `list_shards`, `list_available_databases`,
`list_available_collections`, `query_shard`, `list_shard_databases` and
`list_shard_collections` (src/mongodb_bridge.py:553-572, 627-641, 713-725,
787-803, 867-881, 917-931); only the timeout literal differs between them. -/
/-- Result of `host_str.split("/", 1)` keeping only the host list: the part
after the replica-set name when a `/` is present, the whole string
otherwise. -/
def hostsPart (hostStr : String) : String :=
  if strContainsChar '/' hostStr then afterFirstChar '/' hostStr else hostStr

/-- Python `first_host = hosts.split(",")[0]` applied after the `/` split. -/
def firstHost (hostStr : String) : String :=
  takeUntilChar ',' (hostsPart hostStr)

/-- Python `creds_part = main_uri.split("@")[0].replace("mongodb://", "")`. -/
def credsPart (mainUri : String) : String :=
  replaceMongodb (takeUntilChar '@' mainUri)

/-- The direct per-shard connection string the bridge builds, with the
timeout in milliseconds passed as a string (the source inlines `"3000"` in
the fan-out endpoints and `"5000"` in the single-shard endpoints). -/
def shardUri (mainUri hostStr timeoutMs : String) : String :=
  if strContainsChar '@' mainUri then
    "mongodb://" ++ credsPart mainUri ++ "@" ++ firstHost hostStr ++
      "/?directConnection=true&serverSelectionTimeoutMS=" ++ timeoutMs ++ "&authSource=admin"
  else
    "mongodb://" ++ firstHost hostStr ++
      "/?directConnection=true&serverSelectionTimeoutMS=" ++ timeoutMs

/-! ## JSON values

Transport-level JSON as the bridge sees it: `request.get_json()` output and
`jsonify` input.  Floating-point numbers are outside the modelled fragment.
Objects are ordered field lists, as produced by Python's insertion-ordered
dicts. -/
inductive Json where
  | null
  | bool (b : Bool)
  | num (n : Int)
  | str (s : String)
  | arr (xs : List Json)
  | obj (fs : List (String × Json))

/-- Python `dict.get` on a JSON object's fields. -/
def jget : List (String × Json) → String → Option Json
  | [], _ => none
  | (k, v) :: tl, key => if k = key then some v else jget tl key

/-- Python `key in dct` on a JSON object's fields. -/
def hasKey (fs : List (String × Json)) (k : String) : Bool :=
  (jget fs k).isSome

/-! ## Base64 (the `base64.b64encode` / `b64decode` pair used by
`bson.json_util` for binary payloads).  Bytes are naturals below 256; the
decoder insists on alphabet characters and canonical padding, which is what
the encoder emits. -/
def b64Alphabet : List Char :=
  "ABCDEFGHIJKLMNOPQRSTUVWXYZabcdefghijklmnopqrstuvwxyz0123456789+/".toList

def b64Char (n : Nat) : Char := b64Alphabet.getD n 'A'

def b64Index (c : Char) : Option Nat :=
  let i := b64Alphabet.indexOf c
  if i < 64 then some i else none

def encodeGroups : List Nat → List Char
  | [] => []
  | [b1] => [b64Char (b1 / 4), b64Char (b1 % 4 * 16), '=', '=']
  | [b1, b2] =>
    [b64Char (b1 / 4), b64Char (b1 % 4 * 16 + b2 / 16), b64Char (b2 % 16 * 4), '=']
  | b1 :: b2 :: b3 :: rest =>
    b64Char (b1 / 4) :: b64Char (b1 % 4 * 16 + b2 / 16) ::
      b64Char (b2 % 16 * 4 + b3 / 64) :: b64Char (b3 % 64) :: encodeGroups rest

def decodeGroups : List Char → Option (List Nat)
  | [] => some []
  | c1 :: c2 :: c3 :: c4 :: rest =>
    if rest = [] ∧ c3 = '=' ∧ c4 = '=' then
      match b64Index c1, b64Index c2 with
      | some s1, some s2 => if s2 % 16 = 0 then some [s1 * 4 + s2 / 16] else none
      | _, _ => none
    else if rest = [] ∧ c4 = '=' then
      match b64Index c1, b64Index c2, b64Index c3 with
      | some s1, some s2, some s3 =>
        if s3 % 4 = 0 then some [s1 * 4 + s2 / 16, s2 % 16 * 16 + s3 / 4] else none
      | _, _, _ => none
    else
      match b64Index c1, b64Index c2, b64Index c3, b64Index c4, decodeGroups rest with
      | some s1, some s2, some s3, some s4, some tl =>
        some ((s1 * 4 + s2 / 16) :: (s2 % 16 * 16 + s3 / 4) :: (s3 % 4 * 64 + s4) :: tl)
      | _, _, _, _, _ => none
  | _ => none

/-! ## Hexadecimal subtype strings (Python `int(s, 16)` and `"%02x"`) -/
def hexDigitsLow : List Char := "0123456789abcdef".toList

def hexVal (c : Char) : Option Nat :=
  let i := hexDigitsLow.indexOf c.toLower
  if i < 16 then some i else none

def parseHexCore : Nat → List Char → Option Nat
  | acc, [] => some acc
  | acc, c :: cs =>
    match hexVal c with
    | some v => parseHexCore (acc * 16 + v) cs
    | none => none

/-- Python `int(s, 16)` restricted to bare hex digit strings (no sign, no
`0x` form, no surrounding whitespace). -/
def parseHexList : List Char → Option Nat
  | [] => none
  | l => parseHexCore 0 l

def hexDigitChar (n : Nat) : Char := hexDigitsLow.getD n '0'

/-- Python `"%02x" % n` for a byte value. -/
def hex2 (n : Nat) : String := String.mk [hexDigitChar (n / 16), hexDigitChar (n % 16)]

/-! ## Decimal integers (Python `int(s)` for `$numberLong` payloads) -/
def decVal (c : Char) : Option Nat :=
  if '0' ≤ c ∧ c ≤ '9' then some (c.toNat - '0'.toNat) else none

def parseDecCore : Nat → List Char → Option Nat
  | acc, [] => some acc
  | acc, c :: cs =>
    match decVal c with
    | some v => parseDecCore (acc * 10 + v) cs
    | none => none

/-- Python `int(s)` restricted to bare decimal strings with an optional
leading minus sign. -/
def parseIntString (s : String) : Option Int :=
  match s.toList with
  | [] => none
  | '-' :: rest =>
    match rest with
    | [] => none
    | _ => (parseDecCore 0 rest).map (fun n => -(n : Int))
  | l => (parseDecCore 0 l).map (fun n => (n : Int))

/-! ## BSON values

The value space produced by `parse_json_extended` for the modelled fragment:
plain JSON scalars and containers plus the four extended types the spec
names (object identifiers, dates, regular expressions, binary).  Object
identifiers carry their 24 hex characters (stored lowercased, as `ObjectId`
renders them); dates carry epoch milliseconds; regular expressions carry the
pattern and the set of recognised option letters in canonical `ilmsux`
order, mirroring how `bson.Regex` stores options as `re` flag bits;
binary values carry the subtype byte and the raw bytes. -/
inductive BVal where
  | null
  | bool (b : Bool)
  | num (n : Int)
  | str (s : String)
  | oid (hexStr : String)
  | date (millis : Int)
  | regex (pattern : String) (flags : List Char)
  | binary (subtype : Nat) (bytes : List Nat)
  | arr (xs : List BVal)
  | doc (fs : List (String × BVal))

def isHexChar (c : Char) : Bool :=
  decide (('0' ≤ c ∧ c ≤ '9') ∨ ('a' ≤ c ∧ c ≤ 'f') ∨ ('A' ≤ c ∧ c ≤ 'F'))

/-- Validation performed by the `ObjectId` constructor: 24 hex characters. -/
def oidOk (s : String) : Bool :=
  decide (s.toList.length = 24) && s.toList.all isHexChar

def lowerStr (s : String) : String := String.mk (s.toList.map Char.toLower)

/-- Conversion of a `$options` string to the canonical recognised-flag list:
unknown letters are dropped and the known ones are kept in `ilmsux` order,
exactly as accumulating `re` flag bits and re-rendering them does. -/
def flagsOf (o : String) : List Char :=
  "ilmsux".toList.filter (fun c => decide (c ∈ o.toList))

/-! ## The extended-JSON codec

`decode` is `parse_json_extended` (src/mongodb_bridge.py:96-98), i.e.
`bson.json_util.loads` on the modelled fragment: it recognises both the
legacy and the canonical spellings of the four extended types, with the
legacy keys taking priority, and leaves any other object (including
query-operator objects with unrecognised dollar keys) as a plain document.
`encode` is `serialize_response` (src/mongodb_bridge.py:101-103), i.e.
`bson.json_util.dumps` under its default legacy output options: one fixed
spelling per extended type. -/
mutual

def decode : Json → Option BVal
  | .null => some .null
  | .bool b => some (.bool b)
  | .num n => some (.num n)
  | .str s => some (.str s)
  | .arr xs => (decodeList xs).map .arr
  | .obj fs =>
    if hasKey fs "$oid" then
      match fs with
      | [("$oid", .str s)] => if oidOk s then some (.oid (lowerStr s)) else none
      | _ => none
    else if hasKey fs "$date" then
      match fs with
      | [("$date", .num m)] => some (.date m)
      | [("$date", .obj [("$numberLong", .str s)])] => (parseIntString s).map .date
      | _ => none
    else if hasKey fs "$regex" then
      match jget fs "$regex" with
      | some (.str p) =>
        match jget fs "$options" with
        | none => some (.regex p (flagsOf ""))
        | some (.str o) => some (.regex p (flagsOf o))
        | some _ => none
      | some _ => (decodeFields fs).map .doc
      | none => none
    else if hasKey fs "$binary" then
      match jget fs "$binary", jget fs "$type" with
      | some (.str b64), some (.str ty) =>
        match parseHexList ty.toList, decodeGroups b64.toList with
        | some st, some bytes => if st < 256 then some (.binary st bytes) else none
        | _, _ => none
      | some (.obj g), _ =>
        if g.length = 2 ∧ fs.length = 1 then
          match jget g "base64", jget g "subType" with
          | some (.str b64), some (.str ty) =>
            match parseHexList ty.toList, decodeGroups b64.toList with
            | some st, some bytes => if st < 256 then some (.binary st bytes) else none
            | _, _ => none
          | _, _ => none
        else none
      | _, _ => none
    else if hasKey fs "$regularExpression" then
      match fs with
      | [("$regularExpression", .obj g)] =>
        if g.length = 2 then
          match jget g "pattern", jget g "options" with
          | some (.str p), some (.str o) => some (.regex p (flagsOf o))
          | _, _ => none
        else none
      | _ => none
    else
      (decodeFields fs).map .doc

def decodeList : List Json → Option (List BVal)
  | [] => some []
  | x :: xs =>
    match decode x, decodeList xs with
    | some v, some vs => some (v :: vs)
    | _, _ => none

def decodeFields : List (String × Json) → Option (List (String × BVal))
  | [] => some []
  | (k, v) :: tl =>
    match decode v, decodeFields tl with
    | some w, some ws => some ((k, w) :: ws)
    | _, _ => none

end

mutual

def encode : BVal → Json
  | .null => .null
  | .bool b => .bool b
  | .num n => .num n
  | .str s => .str s
  | .oid s => .obj [("$oid", .str s)]
  | .date m => .obj [("$date", .num m)]
  | .regex p flags => .obj [("$regex", .str p), ("$options", .str (String.mk flags))]
  | .binary st bytes =>
    .obj [("$binary", .str (String.mk (encodeGroups bytes))), ("$type", .str (hex2 st))]
  | .arr xs => .arr (encodeList xs)
  | .doc fs => .obj (encodeFields fs)

def encodeList : List BVal → List Json
  | [] => []
  | x :: xs => encode x :: encodeList xs

def encodeFields : List (String × BVal) → List (String × Json)
  | [] => []
  | (k, v) :: tl => (k, encode v) :: encodeFields tl

end

/-! ## Well-formedness

The values actually producible by decoding: object identifiers are valid and
lowercased, regex flag lists are canonical, binary payloads are bytes with a
byte-sized subtype, and no document field name collides with one of the
extended-type tag keys (a plain document carrying such a key cannot survive
a dump/load cycle, in the model exactly as in `bson.json_util`). -/
def extTagKeys : List String := ["$oid", "$date", "$regex", "$binary", "$regularExpression"]

mutual

def wf : BVal → Bool
  | .null => true
  | .bool _ => true
  | .num _ => true
  | .str _ => true
  | .oid s => oidOk s && decide (lowerStr s = s)
  | .date _ => true
  | .regex _ flags => decide (flagsOf (String.mk flags) = flags)
  | .binary st bytes => decide (st < 256) && bytes.all (fun b => decide (b < 256))
  | .arr xs => wfList xs
  | .doc fs => extTagKeys.all (fun k => !(hasKey (encodeFields fs) k)) && wfFields fs

def wfList : List BVal → Bool
  | [] => true
  | x :: xs => wf x && wfList xs

def wfFields : List (String × BVal) → Bool
  | [] => true
  | (_, v) :: tl => wf v && wfFields tl

end

/-! ## Oracles for database and network effects

A handler's interaction with `pymongo` is replaced by oracle functions.  An
`Except String X` result models either a successful return of `X` or a
raised `PyMongoError` whose string is the driver's message; per-shard
clients are reached through `World.net`, keyed by the exact connection
string the bridge builds, and any operation on an unreachable shard raises
that shard's error. -/
structure ShardRec where
  id : String
  host : String
  state : Int

structure DbInfo where
  name : String
  sizeOnDisk : Option Int
  empty : Bool

structure CollStats where
  count : Int
  size : Int
  avgObjSize : Int

structure UpdateResult where
  matchedCount : Int
  modifiedCount : Int
  upsertedId : Option BVal

/-- What a reachable shard would answer: database names, collection names
per database, per-collection stats and find results. -/
structure ShardView where
  dbNames : List String
  dbInfos : List DbInfo
  collNames : String → List String
  collStatsOf : String → String → Option CollStats
  findDocs : String → String → BVal → Option Json → Option Json → List BVal

structure PrimaryOps where
  listDatabasesOp : Except String (List DbInfo)
  listCollectionNamesOp : String → Except String (List String)
  collStatsOp : String → String → Option CollStats
  findOp : String → String → BVal → Option Json → Option Json → Except String (List BVal)
  aggregateOp : String → String → BVal → Except String (List BVal)
  sampleOp : String → String → Json → Except String (List BVal)
  insertManyOp : String → String → List BVal → Bool → Except String (List BVal)
  updateOneOp : String → String → BVal → BVal → Bool → Except String UpdateResult
  updateManyOp : String → String → BVal → BVal → Bool → Except String UpdateResult
  deleteOneOp : String → String → BVal → Except String Int
  deleteManyOp : String → String → BVal → Except String Int
  commandOp : String → BVal → Except String BVal
  estimatedCountOp : String → String → Except String Int
  listIndexesOp : String → String → Except String (List BVal)
  configShardsOp : Except String (List ShardRec)
  configShardFindOneOp : String → Except String (Option ShardRec)

structure World where
  mongoUri : String
  apiKey : String
  prim : PrimaryOps
  net : String → Except String ShardView

/-- Lifecycle events of the short-lived per-shard clients. -/
inductive ConnEvent where
  | opened (uri : String)
  | closed (uri : String)

/-- The uniform error body `jsonify({"error": e})`. -/
def errBody (e : String) : Json := .obj [("error", .str e)]

/-- Python truthiness of a JSON value. -/
def jTruthy : Json → Bool
  | .null => false
  | .bool b => b
  | .num n => decide (n ≠ 0)
  | .str s => decide (s ≠ "")
  | .arr xs => !xs.isEmpty
  | .obj fs => !fs.isEmpty

/-- Cursor skip as configured by `if skip: cursor = cursor.skip(skip)`:
a falsy value leaves the cursor untouched, a non-negative integer drops that
many documents, anything else raises before the query runs. -/
def skipFun (j : Json) : Option (List BVal → List BVal) :=
  if jTruthy j then
    match j with
    | .num n => if 0 ≤ n then some (fun docs => docs.drop n.toNat) else none
    | _ => none
  else some id

/-- Cursor limit as configured by `if limit: cursor = cursor.limit(limit)`:
a falsy value (in particular 0) leaves the cursor unlimited, an integer caps
the result at its absolute value, anything else raises before the query
runs. -/
def limitFun (j : Json) : Option (List BVal → List BVal) :=
  if jTruthy j then
    match j with
    | .num n => some (fun docs => docs.take n.natAbs)
    | _ => none
  else some id

/-! ## Handlers

Each definition mirrors one Flask view function of `mongodb_bridge.py`,
with the `try/except PyMongoError → 500, except Exception → 400` frame
realised branch by branch.  Handlers that open per-shard clients also
return the trace of open/close events in program order. -/
/-- Handler of `GET /` (src/mongodb_bridge.py:117-139). -/
def indexHandler : Nat × Json :=
  (200, .obj [("service", .str "MongoDB HTTP Bridge"), ("status", .str "running"),
    ("auth_required", .bool true),
    ("endpoints", .arr ([
      "GET  /databases", "GET  /databases/available  (shard-aware)",
      "GET  /databases/<db>/collections",
      "GET  /databases/<db>/collections/available  (shard-aware)",
      "GET  /shards  (list shards and status)",
      "POST /query", "POST /aggregate", "POST /insert", "POST /update",
      "POST /delete", "POST /command",
      "GET  /collection/<db>/<collection>/count",
      "GET  /collection/<db>/<collection>/indexes"].map Json.str))])

/-- Handler of `POST /query` (src/mongodb_bridge.py:188-248). -/
def queryHandler (w : World) (body : Option Json) : Nat × Json :=
  match body with
  | none => (400, errBody "Request body required")
  | some data =>
    if !(jTruthy data) then (400, errBody "Request body required")
    else match data with
    | .obj fs =>
      let dbnJ := (jget fs "database").getD .null
      let clnJ := (jget fs "collection").getD .null
      if !(jTruthy dbnJ) || !(jTruthy clnJ) then
        (400, errBody "database and collection are required")
      else match dbnJ, clnJ with
      | .str dbName, .str collName =>
        match decode ((jget fs "filter").getD (.obj [])) with
        | none => (400, errBody "Query error: extended JSON decode failed")
        | some filt =>
          let projection := jget fs "projection"
          let sort := jget fs "sort"
          let limitJ := (jget fs "limit").getD (.num 100)
          let skipJ := (jget fs "skip").getD (.num 0)
          match skipFun skipJ, limitFun limitJ with
          | some skipF, some limitF =>
            match w.prim.findOp dbName collName filt projection sort with
            | .error e => (500, errBody e)
            | .ok docs =>
              let out := limitF (skipF docs)
              (200, .obj [("database", .str dbName), ("collection", .str collName),
                ("count", .num out.length), ("documents", .arr (encodeList out))])
          | _, _ => (400, errBody "Query error: invalid skip or limit")
      | _, _ => (400, errBody "Query error: database and collection must be strings")
    | _ => (400, errBody "Query error: request body must be an object")

/-- Handler of `POST /insert` (src/mongodb_bridge.py:300-347). -/
def insertHandler (w : World) (body : Option Json) : Nat × Json :=
  match body with
  | none => (400, errBody "Request body required")
  | some data =>
    if !(jTruthy data) then (400, errBody "Request body required")
    else match data with
    | .obj fs =>
      let dbnJ := (jget fs "database").getD .null
      let clnJ := (jget fs "collection").getD .null
      let docsJ := (jget fs "documents").getD .null
      let orderedJ := (jget fs "ordered").getD (.bool true)
      if !(jTruthy dbnJ) || !(jTruthy clnJ) || !(jTruthy docsJ) then
        (400, errBody "database, collection, and documents are required")
      else match dbnJ, clnJ with
      | .str dbName, .str collName =>
        match (match docsJ with
               | .obj dfs => some [Json.obj dfs]
               | .arr xs => some xs
               | _ => none) with
        | none => (400, errBody "Insert error: documents must be an object or a list")
        | some docs =>
          match decodeList docs with
          | none => (400, errBody "Insert error: extended JSON decode failed")
          | some bdocs =>
            match w.prim.insertManyOp dbName collName bdocs (jTruthy orderedJ) with
            | .error e => (500, errBody e)
            | .ok ids =>
              (200, .obj [("database", .str dbName), ("collection", .str collName),
                ("inserted_count", .num ids.length), ("inserted_ids", .arr (encodeList ids))])
      | _, _ => (400, errBody "Insert error: database and collection must be strings")
    | _ => (400, errBody "Insert error: request body must be an object")

/-! ### Shard fan-out -/
/-- The per-shard connectivity probe of `list_shards`
(src/mongodb_bridge.py:551-583): build the direct connection string, open a
client, ping; on success the client is closed, on failure the except-branch
records the error and no close happens. -/
def probeShardPing (w : World) (s : ShardRec) : (Bool × Option String) × List ConnEvent :=
  let uri := shardUri w.mongoUri s.host "3000"
  match w.net uri with
  | .ok _ => ((true, none), [.opened uri, .closed uri])
  | .error e => ((false, some e), [.opened uri])

def shardInfoJson (s : ShardRec) (onl : Bool) (err : Option String) : Json :=
  .obj [("id", .str s.id), ("host", .str s.host), ("state", .num s.state),
    ("online", .bool onl),
    ("error", match err with | none => .null | some e => .str e)]

/-- Handler of `GET /shards` (src/mongodb_bridge.py:526-595). -/
def listShardsHandler (w : World) : (Nat × Json) × List ConnEvent :=
  match w.prim.configShardsOp with
  | .error e => ((500, errBody e), [])
  | .ok shards =>
    let probes := shards.map (fun s => (s, probeShardPing w s))
    let infos := probes.map (fun p => shardInfoJson p.1 p.2.1.1 p.2.1.2)
    ((200, .obj [
      ("total_shards", .num shards.length),
      ("online_shards", .num (probes.countP (fun p => p.2.1.1))),
      ("offline_shards", .num (probes.countP (fun p => !p.2.1.1))),
      ("shards", .arr infos)]),
     (probes.map (fun p => p.2.2)).flatten)

/-- The per-shard probe of `list_available_databases`
(src/mongodb_bridge.py:626-660): connect, list database names; failure
yields an offline record with the error and no data and no close. -/
def probeShardDbs (w : World) (s : ShardRec) : (Bool × List String × Option String) × List ConnEvent :=
  let uri := shardUri w.mongoUri s.host "3000"
  match w.net uri with
  | .ok view => ((true, view.dbNames, none), [.opened uri, .closed uri])
  | .error e => ((false, [], some e), [.opened uri])

/-- One merged entry of `all_databases`: a database name and the shard
identifiers that contributed it, in contribution order. -/
structure DbEntry where
  name : String
  shards : List String

/-- The merge step of `list_available_databases`
(src/mongodb_bridge.py:650-654): create the entry on first sight of a name,
then append the contributing shard identifier. -/
def addDbName (acc : List DbEntry) (sid name : String) : List DbEntry :=
  if acc.any (fun e => e.name = name) then
    acc.map (fun e => if e.name = name then { e with shards := e.shards ++ [sid] } else e)
  else acc ++ [{ name := name, shards := [sid] }]

def mergeShardDbs (acc : List DbEntry) (sid : String) (dbs : List String) : List DbEntry :=
  dbs.foldl (fun a n => addDbName a sid n) acc

def configDbNames : List String := ["admin", "config", "local"]

/-- The unconditional `config_dbs` injection of `list_available_databases`
(src/mongodb_bridge.py:664-671): the names admin, config and local are added
with pseudo-shard "config" whenever no shard contributed them. -/
def addConfigDbs (acc : List DbEntry) : List DbEntry :=
  configDbNames.foldl (fun a n =>
    if a.any (fun e => e.name = n) then a else a ++ [{ name := n, shards := ["config"] }]) acc

def dbEntryJson (e : DbEntry) : Json :=
  .obj [("name", .str e.name), ("shards", .arr (e.shards.map .str))]

def shardDbResultJson (sid : String) (onl : Bool) (dbs : List String) (err : Option String) : Json :=
  .obj [("shard_id", .str sid), ("online", .bool onl),
    ("databases", .arr (dbs.map .str)),
    ("error", match err with | none => .null | some e => .str e)]

/-- The probe list of `list_available_databases`, in shard order. -/
def dbProbes (w : World) (shards : List ShardRec) :
    List (ShardRec × ((Bool × List String × Option String) × List ConnEvent)) :=
  shards.map (fun s => (s, probeShardDbs w s))

/-- The `all_databases` mapping at the end of the shard loop of
`list_available_databases`, config-database injection included. -/
def mergedDatabases (w : World) (shards : List ShardRec) : List DbEntry :=
  addConfigDbs ((dbProbes w shards).foldl (fun acc p =>
    if p.2.1.1 then mergeShardDbs acc p.1.id p.2.1.2.1 else acc) [])

/-- Handler of `GET /databases/available` (src/mongodb_bridge.py:598-682). -/
def listAvailableDatabasesHandler (w : World) : (Nat × Json) × List ConnEvent :=
  match w.prim.configShardsOp with
  | .error e => ((500, errBody e), [])
  | .ok shards =>
    ((200, .obj [
      ("total_shards", .num shards.length),
      ("online_shards", .num ((dbProbes w shards).countP (fun p => p.2.1.1))),
      ("databases", .arr ((mergedDatabases w shards).map dbEntryJson)),
      ("shard_details", .arr ((dbProbes w shards).map (fun p =>
        shardDbResultJson p.1.id p.2.1.1 p.2.1.2.1 p.2.1.2.2)))]),
     ((dbProbes w shards).map (fun p => p.2.2)).flatten)

/-- The per-shard probe of `list_available_collections`
(src/mongodb_bridge.py:712-743): connect, list collection names when the
database exists on the shard (an empty list otherwise); failure yields an
offline record with the error and no data and no close. -/
def probeShardColls (w : World) (db : String) (s : ShardRec) :
    (Bool × List String × Option String) × List ConnEvent :=
  let uri := shardUri w.mongoUri s.host "3000"
  match w.net uri with
  | .ok view =>
    ((true, if db ∈ view.dbNames then view.collNames db else [], none),
     [.opened uri, .closed uri])
  | .error e => ((false, [], some e), [.opened uri])

def shardCollResultJson (sid : String) (onl : Bool) (colls : List String) (err : Option String) : Json :=
  .obj [("shard_id", .str sid), ("online", .bool onl),
    ("collections", .arr (colls.map .str)),
    ("error", match err with | none => .null | some e => .str e)]

/-- Lexicographic code-point comparison, Python string `<=`. -/
def charListLe : List Char → List Char → Bool
  | [], _ => true
  | _ :: _, [] => false
  | a :: as, b :: bs =>
    if a.val < b.val then true
    else if a = b then charListLe as bs
    else false

def strLe (a b : String) : Bool := charListLe a.toList b.toList

def insertSorted (x : String) : List String → List String
  | [] => [x]
  | y :: ys => if strLe x y then x :: y :: ys else y :: insertSorted x ys

def sortStrings : List String → List String
  | [] => []
  | x :: xs => insertSorted x (sortStrings xs)

def dedupStr : List String → List String
  | [] => []
  | x :: xs =>
    let rest := dedupStr xs
    if x ∈ rest then rest else x :: rest

/-- Python `sorted(list(s))` for a set `s` accumulated from lists: the
distinct elements in ascending order. -/
def sortedSetOf (l : List String) : List String := sortStrings (dedupStr l)

/-- The probe list of `list_available_collections`, in shard order. -/
def collProbes (w : World) (db : String) (shards : List ShardRec) :
    List (ShardRec × ((Bool × List String × Option String) × List ConnEvent)) :=
  shards.map (fun s => (s, probeShardColls w db s))

/-- The `sorted(list(all_collections))` value of `list_available_collections`:
the union of the per-shard contributions (unreachable shards contribute the
empty list), deduplicated and sorted. -/
def mergedCollections (w : World) (db : String) (shards : List ShardRec) : List String :=
  sortedSetOf (((collProbes w db shards).map (fun p => p.2.1.2.1)).flatten)

/-- Handler of `GET /databases/<db>/collections/available`
(src/mongodb_bridge.py:685-757). -/
def listAvailableCollectionsHandler (w : World) (db : String) : (Nat × Json) × List ConnEvent :=
  match w.prim.configShardsOp with
  | .error e => ((500, errBody e), [])
  | .ok shards =>
    ((200, .obj [
      ("database", .str db),
      ("collections", .arr ((mergedCollections w db shards).map .str)),
      ("total_shards", .num shards.length),
      ("online_shards", .num ((collProbes w db shards).countP (fun p => p.2.1.1))),
      ("shard_details", .arr ((collProbes w db shards).map (fun p =>
        shardCollResultJson p.1.id p.2.1.1 p.2.1.2.1 p.2.1.2.2)))]),
     ((collProbes w db shards).map (fun p => p.2.2)).flatten)

/-- Handler of `POST /shard/<shard_id>/query` (src/mongodb_bridge.py:760-852).
The direct client is constructed right after the shard lookup, before the
body is even read, so every subsequent failure path leaves the connection
without an explicit close. -/
def queryShardHandler (w : World) (sid : String) (body : Option Json) :
    (Nat × Json) × List ConnEvent :=
  match w.prim.configShardFindOneOp sid with
  | .error e => ((500, errBody e), [])
  | .ok none => ((404, errBody ("Shard \x27" ++ sid ++ "\x27 not found")), [])
  | .ok (some shard) =>
    let uri := shardUri w.mongoUri shard.host "5000"
    match body with
    | none => ((400, errBody "Request body required"), [.opened uri])
    | some data =>
      if !(jTruthy data) then ((400, errBody "Request body required"), [.opened uri])
      else match data with
      | .obj fs =>
        let dbnJ := (jget fs "database").getD .null
        let clnJ := (jget fs "collection").getD .null
        if !(jTruthy dbnJ) || !(jTruthy clnJ) then
          ((400, errBody "database and collection are required"), [.opened uri])
        else match dbnJ, clnJ with
        | .str dbName, .str collName =>
          match decode ((jget fs "filter").getD (.obj [])) with
          | none => ((400, errBody "Query error: extended JSON decode failed"), [.opened uri])
          | some filt =>
            let projection := jget fs "projection"
            let sort := jget fs "sort"
            let limitJ := (jget fs "limit").getD (.num 100)
            let skipJ := (jget fs "skip").getD (.num 0)
            match skipFun skipJ, limitFun limitJ with
            | some skipF, some limitF =>
              match (w.net uri).map (fun view => view.findDocs dbName collName filt projection sort) with
              | .error e => ((500, errBody e), [.opened uri])
              | .ok docs =>
                let out := limitF (skipF docs)
                ((200, .obj [("shard", .str sid), ("database", .str dbName),
                  ("collection", .str collName), ("count", .num out.length),
                  ("documents", .arr (encodeList out))]),
                 [.opened uri, .closed uri])
            | _, _ => ((400, errBody "Query error: invalid skip or limit"), [.opened uri])
        | _, _ => ((400, errBody "Query error: database and collection must be strings"), [.opened uri])
      | _ => ((400, errBody "Query error: request body must be an object"), [.opened uri])

/-- Handler of `GET /shard/<shard_id>/databases`
(src/mongodb_bridge.py:855-902). -/
def listShardDatabasesHandler (w : World) (sid : String) : (Nat × Json) × List ConnEvent :=
  match w.prim.configShardFindOneOp sid with
  | .error e => ((500, errBody e), [])
  | .ok none => ((404, errBody ("Shard \x27" ++ sid ++ "\x27 not found")), [])
  | .ok (some shard) =>
    let uri := shardUri w.mongoUri shard.host "5000"
    match w.net uri with
    | .error e => ((500, errBody e), [.opened uri])
    | .ok view =>
      ((200, .obj [("shard", .str sid),
        ("databases", .arr (view.dbInfos.map (fun i =>
          Json.obj [("name", .str i.name),
            ("sizeOnDisk", match i.sizeOnDisk with | none => Json.null | some n => Json.num n),
            ("empty", .bool i.empty)])))]),
       [.opened uri, .closed uri])

/-- Handler of `GET /shard/<shard_id>/databases/<db>/collections`
(src/mongodb_bridge.py:905-958). -/
def listShardCollectionsHandler (w : World) (sid db : String) : (Nat × Json) × List ConnEvent :=
  match w.prim.configShardFindOneOp sid with
  | .error e => ((500, errBody e), [])
  | .ok none => ((404, errBody ("Shard \x27" ++ sid ++ "\x27 not found")), [])
  | .ok (some shard) =>
    let uri := shardUri w.mongoUri shard.host "5000"
    match w.net uri with
    | .error e => ((500, errBody e), [.opened uri])
    | .ok view =>
      ((200, .obj [("shard", .str sid), ("database", .str db),
        ("collections", .arr ((view.collNames db).map (fun n =>
          match view.collStatsOf db n with
          | some st => Json.obj [("name", .str n), ("count", .num st.count), ("size", .num st.size)]
          | none => Json.obj [("name", .str n)])))]),
       [.opened uri, .closed uri])

/-! ### Remaining single-connection handlers -/
/-- Handler of `GET /databases` (src/mongodb_bridge.py:142-157). -/
def listDatabasesHandler (w : World) : Nat × Json :=
  match w.prim.listDatabasesOp with
  | .error e => (500, errBody e)
  | .ok infos =>
    (200, .obj [("databases", .arr (infos.map (fun i =>
      Json.obj [("name", .str i.name),
        ("sizeOnDisk", match i.sizeOnDisk with | none => Json.null | some n => Json.num n),
        ("empty", .bool i.empty)])))])

/-- Handler of `GET /databases/<db>/collections` (src/mongodb_bridge.py:160-185). -/
def listCollectionsHandler (w : World) (db : String) : Nat × Json :=
  match w.prim.listCollectionNamesOp db with
  | .error e => (500, errBody e)
  | .ok names =>
    (200, .obj [("database", .str db), ("collections", .arr (names.map (fun n =>
      match w.prim.collStatsOp db n with
      | some st => Json.obj [("name", .str n), ("count", .num st.count),
          ("size", .num st.size), ("avgObjSize", .num st.avgObjSize)]
      | none => Json.obj [("name", .str n)])))])

/-- Handler of `POST /aggregate` (src/mongodb_bridge.py:251-297). -/
def aggregateHandler (w : World) (body : Option Json) : Nat × Json :=
  match body with
  | none => (400, errBody "Request body required")
  | some data =>
    if !(jTruthy data) then (400, errBody "Request body required")
    else match data with
    | .obj fs =>
      let dbnJ := (jget fs "database").getD .null
      let clnJ := (jget fs "collection").getD .null
      if !(jTruthy dbnJ) || !(jTruthy clnJ) then
        (400, errBody "database and collection are required")
      else match dbnJ, clnJ with
      | .str dbName, .str collName =>
        match decode ((jget fs "pipeline").getD (.arr [])) with
        | none => (400, errBody "Aggregation error: extended JSON decode failed")
        | some pipeline =>
          match w.prim.aggregateOp dbName collName pipeline with
          | .error e => (500, errBody e)
          | .ok results =>
            (200, .obj [("database", .str dbName), ("collection", .str collName),
              ("count", .num results.length), ("results", .arr (encodeList results))])
      | _, _ => (400, errBody "Aggregation error: database and collection must be strings")
    | _ => (400, errBody "Aggregation error: request body must be an object")

/-- Handler of `POST /update` (src/mongodb_bridge.py:350-402). -/
def updateHandler (w : World) (body : Option Json) : Nat × Json :=
  match body with
  | none => (400, errBody "Request body required")
  | some data =>
    if !(jTruthy data) then (400, errBody "Request body required")
    else match data with
    | .obj fs =>
      let dbnJ := (jget fs "database").getD .null
      let clnJ := (jget fs "collection").getD .null
      let updJ := (jget fs "update").getD .null
      let manyJ := (jget fs "many").getD (.bool false)
      let upsertJ := (jget fs "upsert").getD (.bool false)
      if !(jTruthy dbnJ) || !(jTruthy clnJ) || !(jTruthy updJ) then
        (400, errBody "database, collection, and update are required")
      else match dbnJ, clnJ with
      | .str dbName, .str collName =>
        match decode ((jget fs "filter").getD (.obj [])), decode updJ with
        | some filt, some upd =>
          match (if jTruthy manyJ then
                   w.prim.updateManyOp dbName collName filt upd (jTruthy upsertJ)
                 else
                   w.prim.updateOneOp dbName collName filt upd (jTruthy upsertJ)) with
          | .error e => (500, errBody e)
          | .ok r =>
            (200, .obj [("database", .str dbName), ("collection", .str collName),
              ("matched_count", .num r.matchedCount), ("modified_count", .num r.modifiedCount),
              ("upserted_id", match r.upsertedId with
                | none => Json.null
                | some v => encode v)])
        | _, _ => (400, errBody "Update error: extended JSON decode failed")
      | _, _ => (400, errBody "Update error: database and collection must be strings")
    | _ => (400, errBody "Update error: request body must be an object")

/-- Handler of `POST /delete` (src/mongodb_bridge.py:405-450). -/
def deleteHandler (w : World) (body : Option Json) : Nat × Json :=
  match body with
  | none => (400, errBody "Request body required")
  | some data =>
    if !(jTruthy data) then (400, errBody "Request body required")
    else match data with
    | .obj fs =>
      let dbnJ := (jget fs "database").getD .null
      let clnJ := (jget fs "collection").getD .null
      let manyJ := (jget fs "many").getD (.bool false)
      if !(jTruthy dbnJ) || !(jTruthy clnJ) then
        (400, errBody "database and collection are required")
      else match dbnJ, clnJ with
      | .str dbName, .str collName =>
        match decode ((jget fs "filter").getD (.obj [])) with
        | none => (400, errBody "Delete error: extended JSON decode failed")
        | some filt =>
          match (if jTruthy manyJ then w.prim.deleteManyOp dbName collName filt
                 else w.prim.deleteOneOp dbName collName filt) with
          | .error e => (500, errBody e)
          | .ok n =>
            (200, .obj [("database", .str dbName), ("collection", .str collName),
              ("deleted_count", .num n)])
      | _, _ => (400, errBody "Delete error: database and collection must be strings")
    | _ => (400, errBody "Delete error: request body must be an object")

/-- Handler of `POST /command` (src/mongodb_bridge.py:453-489). -/
def commandHandler (w : World) (body : Option Json) : Nat × Json :=
  match body with
  | none => (400, errBody "Request body required")
  | some data =>
    if !(jTruthy data) then (400, errBody "Request body required")
    else match data with
    | .obj fs =>
      let cmdJ := (jget fs "command").getD .null
      if !(jTruthy cmdJ) then (400, errBody "command is required")
      else match (jget fs "database").getD (.str "admin") with
      | .str dbName =>
        match decode cmdJ with
        | none => (400, errBody "Command error: extended JSON decode failed")
        | some cmd =>
          match w.prim.commandOp dbName cmd with
          | .error e => (500, errBody e)
          | .ok r => (200, .obj [("database", .str dbName), ("result", encode r)])
      | _ => (400, errBody "Command error: database must be a string")
    | _ => (400, errBody "Command error: request body must be an object")

/-- Handler of `GET /collection/<db>/<collection>/count`
(src/mongodb_bridge.py:492-506). -/
def countHandler (w : World) (db coll : String) : Nat × Json :=
  match w.prim.estimatedCountOp db coll with
  | .error e => (500, errBody e)
  | .ok n =>
    (200, .obj [("database", .str db), ("collection", .str coll), ("count", .num n)])

/-- Handler of `GET /collection/<db>/<collection>/indexes`
(src/mongodb_bridge.py:509-523). -/
def indexesHandler (w : World) (db coll : String) : Nat × Json :=
  match w.prim.listIndexesOp db coll with
  | .error e => (500, errBody e)
  | .ok idxs =>
    (200, .obj [("database", .str db), ("collection", .str coll),
      ("indexes", .arr (encodeList idxs))])

/-- Handler of `POST /sample` (src/mongodb_bridge.py:961-1002); the sample
size JSON is handed to the pipeline unparsed. -/
def sampleHandler (w : World) (body : Option Json) : Nat × Json :=
  match body with
  | none => (400, errBody "Request body required")
  | some data =>
    if !(jTruthy data) then (400, errBody "Request body required")
    else match data with
    | .obj fs =>
      let dbnJ := (jget fs "database").getD .null
      let clnJ := (jget fs "collection").getD .null
      let sizeJ := (jget fs "size").getD (.num 5)
      if !(jTruthy dbnJ) || !(jTruthy clnJ) then
        (400, errBody "database and collection are required")
      else match dbnJ, clnJ with
      | .str dbName, .str collName =>
        match w.prim.sampleOp dbName collName sizeJ with
        | .error e => (500, errBody e)
        | .ok results =>
          (200, .obj [("database", .str dbName), ("collection", .str collName),
            ("count", .num results.length), ("documents", .arr (encodeList results))])
      | _, _ => (400, errBody "Sample error: database and collection must be strings")
    | _ => (400, errBody "Sample error: request body must be an object")

/-! ## Authentication and routing -/
/-- The `require_api_key` decorator (src/mongodb_bridge.py:106-114): a
missing or falsy or mismatching `X-API-Key` header short-circuits to 401
with the uniform body, before the wrapped handler runs. -/
def requireApiKey (apiKey : String) (provided : Option String) (handler : Unit → Nat × Json) :
    Nat × Json :=
  match provided with
  | none => (401, errBody "Unauthorized - Invalid or missing API key")
  | some k =>
    if k = "" ∨ k ≠ apiKey then (401, errBody "Unauthorized - Invalid or missing API key")
    else handler ()

/-- The route table of the Flask app: one constructor per registered view
function, carrying its path parameters. -/
inductive Route where
  | health
  | databases
  | databasesAvailable
  | collections (db : String)
  | collectionsAvailable (db : String)
  | shardsRoute
  | queryRoute
  | aggregateRoute
  | insertRoute
  | updateRoute
  | deleteRoute
  | commandRoute
  | countRoute (db coll : String)
  | indexesRoute (db coll : String)
  | shardQuery (sid : String)
  | shardDatabases (sid : String)
  | shardCollections (sid db : String)
  | sampleRoute

/-- Request dispatch: every route except the health check is wrapped in
`require_api_key`; the health check handler is registered bare. -/
def dispatch (w : World) (r : Route) (key : Option String) (body : Option Json) : Nat × Json :=
  match r with
  | .health => indexHandler
  | .databases => requireApiKey w.apiKey key (fun _ => listDatabasesHandler w)
  | .databasesAvailable => requireApiKey w.apiKey key (fun _ => (listAvailableDatabasesHandler w).1)
  | .collections db => requireApiKey w.apiKey key (fun _ => listCollectionsHandler w db)
  | .collectionsAvailable db =>
    requireApiKey w.apiKey key (fun _ => (listAvailableCollectionsHandler w db).1)
  | .shardsRoute => requireApiKey w.apiKey key (fun _ => (listShardsHandler w).1)
  | .queryRoute => requireApiKey w.apiKey key (fun _ => queryHandler w body)
  | .aggregateRoute => requireApiKey w.apiKey key (fun _ => aggregateHandler w body)
  | .insertRoute => requireApiKey w.apiKey key (fun _ => insertHandler w body)
  | .updateRoute => requireApiKey w.apiKey key (fun _ => updateHandler w body)
  | .deleteRoute => requireApiKey w.apiKey key (fun _ => deleteHandler w body)
  | .commandRoute => requireApiKey w.apiKey key (fun _ => commandHandler w body)
  | .countRoute db coll => requireApiKey w.apiKey key (fun _ => countHandler w db coll)
  | .indexesRoute db coll => requireApiKey w.apiKey key (fun _ => indexesHandler w db coll)
  | .shardQuery sid => requireApiKey w.apiKey key (fun _ => (queryShardHandler w sid body).1)
  | .shardDatabases sid => requireApiKey w.apiKey key (fun _ => (listShardDatabasesHandler w sid).1)
  | .shardCollections sid db =>
    requireApiKey w.apiKey key (fun _ => (listShardCollectionsHandler w sid db).1)
  | .sampleRoute => requireApiKey w.apiKey key (fun _ => sampleHandler w body)

/-! ## Concrete worlds for closed instances -/
def emptyView : ShardView :=
  { dbNames := [], dbInfos := [], collNames := fun _ => [],
    collStatsOf := fun _ _ => none, findDocs := fun _ _ _ _ _ => [] }

def emptyPrim : PrimaryOps :=
  { listDatabasesOp := .ok []
    listCollectionNamesOp := fun _ => .ok []
    collStatsOp := fun _ _ => none
    findOp := fun _ _ _ _ _ => .ok []
    aggregateOp := fun _ _ _ => .ok []
    sampleOp := fun _ _ _ => .ok []
    insertManyOp := fun _ _ docs _ => .ok (docs.map (fun _ => BVal.oid "0123456789abcdef01234567"))
    updateOneOp := fun _ _ _ _ _ => .ok ⟨0, 0, none⟩
    updateManyOp := fun _ _ _ _ _ => .ok ⟨0, 0, none⟩
    deleteOneOp := fun _ _ _ => .ok 0
    deleteManyOp := fun _ _ _ => .ok 0
    commandOp := fun _ _ => .ok .null
    estimatedCountOp := fun _ _ => .ok 0
    listIndexesOp := fun _ _ => .ok []
    configShardsOp := .ok []
    configShardFindOneOp := fun _ => .ok none }

def demoWorld : World :=
  { mongoUri := "mongodb://cfg:27019", apiKey := "k", prim := emptyPrim,
    net := fun _ => .error "unreachable" }

def demoWorldB : World :=
  { mongoUri := "mongodb://cfg:27019", apiKey := "k",
    prim := { emptyPrim with configShardsOp := .error "config down" },
    net := fun _ => .error "unreachable" }

/-- Shard A of the two-shard scenario: reachable. -/
def shardA : ShardRec := { id := "shardA", host := "rsA/a:27018,a2:27018", state := 1 }

/-- Shard B of the two-shard scenario: unreachable. -/
def shardB : ShardRec := { id := "shardB", host := "rsB/b:27018", state := 1 }

/-- What reachable shard A answers. -/
def viewA : ShardView :=
  { dbNames := ["mydb"], dbInfos := [],
    collNames := fun d => if d = "mydb" then ["orders", "users"] else [],
    collStatsOf := fun _ _ => none,
    findDocs := fun _ _ _ _ _ => [BVal.num 1, BVal.num 2, BVal.num 3] }

/-- A fan-out scenario: two shards in the metadata, A answers, B raises. -/
def twoShardWorld : World :=
  { mongoUri := "mongodb://cfg:27019", apiKey := "k",
    prim := { emptyPrim with
      configShardsOp := .ok [shardA, shardB]
      configShardFindOneOp := fun sid =>
        if sid = "shardA" then .ok (some shardA)
        else if sid = "shardB" then .ok (some shardB) else .ok none }
    net := fun uri =>
      if uri = shardUri "mongodb://cfg:27019" "rsA/a:27018,a2:27018" "3000" then .ok viewA
      else if uri = shardUri "mongodb://cfg:27019" "rsA/a:27018,a2:27018" "5000" then .ok viewA
      else .error "connection refused" }

/-- Field access on a response body, for stating which keys a response
carries. -/
def bodyField (resp : Nat × Json) (k : String) : Option Json :=
  match resp.2 with
  | .obj fs => jget fs k
  | _ => none

/-- The two-shard world with a primary whose find returns three documents,
for exercising cursor limits. -/
def c10World : World :=
  { twoShardWorld with prim := { twoShardWorld.prim with
      findOp := fun _ _ _ _ _ => .ok [BVal.num 1, BVal.num 2, BVal.num 3] } }

/-- A world whose primary driver raises on find and whose shard metadata
contains no shard, for exercising the failure branches. -/
def errWorld : World :=
  { mongoUri := "mongodb://cfg:27019", apiKey := "k",
    prim := { emptyPrim with
      findOp := fun _ _ _ _ _ => .error "server down"
      configShardFindOneOp := fun _ => .ok none }
    net := fun _ => .error "unreachable" }

/-- The shard identifiers that contributed a given database name during the
fan-out: the reachable probes whose listing contains the name, in probe
order.  This is what the per-name `shards` list of `all_databases`
(src/mongodb_bridge.py:650-654) is expected to equal. -/
def contribs (probes : List (ShardRec × ((Bool × List String × Option String) × List ConnEvent)))
    (n : String) : List String :=
  (probes.filter (fun p => p.2.1.1 && decide (n ∈ p.2.1.2.1))).map (fun p => p.1.id)

/-- Shard C of the three-shard scenario: reachable, sharing mydb with A. -/
def shardC : ShardRec := { id := "shardC", host := "rsC/c:27018", state := 1 }

/-- What reachable shard C answers: mydb again, plus zoo. -/
def viewC : ShardView :=
  { dbNames := ["mydb", "zoo"], dbInfos := [],
    collNames := fun d => if d = "mydb" then ["users"] else [],
    collStatsOf := fun _ _ => none,
    findDocs := fun _ _ _ _ _ => [] }

/-- A fan-out scenario with three shards: A and C answer, both holding mydb,
while B raises; the merged entry for mydb must carry both identifiers, the
second one added by the append branch of the merge loop. -/
def threeShardWorld : World :=
  { mongoUri := "mongodb://cfg:27019", apiKey := "k",
    prim := { emptyPrim with configShardsOp := .ok [shardA, shardB, shardC] }
    net := fun uri =>
      if uri = shardUri "mongodb://cfg:27019" "rsA/a:27018,a2:27018" "3000" then .ok viewA
      else if uri = shardUri "mongodb://cfg:27019" "rsC/c:27018" "3000" then .ok viewC
      else .error "connection refused" }

/-! ## Theorems -/

/-! ### Lemmas about the string helpers -/
theorem toList_append (s t : String) : (s ++ t).toList = s.toList ++ t.toList := by
  cases s; cases t; rfl

theorem mk_toList (s : String) : String.mk s.toList = s := by
  cases s; rfl

theorem takeUntilCharList_append (c : Char) (a b : List Char) (ha : c ∉ a) :
    takeUntilCharList c (a ++ c :: b) = a := by
  induction a with
  | nil => simp [takeUntilCharList]
  | cons x xs ih =>
    simp only [List.mem_cons, not_or] at ha
    have hx : ¬(x = c) := fun hh => ha.1 hh.symm
    simp [takeUntilCharList, hx, ih ha.2]

theorem afterFirstCharList_append (c : Char) (a b : List Char) (ha : c ∉ a) :
    afterFirstCharList c (a ++ c :: b) = b := by
  induction a with
  | nil => simp [afterFirstCharList]
  | cons x xs ih =>
    simp only [List.mem_cons, not_or] at ha
    have hx : ¬(x = c) := fun hh => ha.1 hh.symm
    simp [afterFirstCharList, hx, ih ha.2]

theorem takeUntilCharList_of_not_mem (c : Char) (l : List Char) (h : c ∉ l) :
    takeUntilCharList c l = l := by
  induction l with
  | nil => rfl
  | cons x xs ih =>
    simp only [List.mem_cons, not_or] at h
    have hx : ¬(x = c) := fun hh => h.1 hh.symm
    simp [takeUntilCharList, hx, ih h.2]

theorem takeUntilCharList_subset (c : Char) (l : List Char) :
    ∀ x ∈ takeUntilCharList c l, x ∈ l := by
  induction l with
  | nil => simp [takeUntilCharList]
  | cons y ys ih =>
    intro x hx
    by_cases hy : y = c
    · simp [takeUntilCharList, hy] at hx
    · simp only [takeUntilCharList, if_neg hy, List.mem_cons] at hx
      rcases hx with h | h
      · simp [h]
      · simp [ih x h]

theorem afterFirstCharList_subset (c : Char) (l : List Char) :
    ∀ x ∈ afterFirstCharList c l, x ∈ l := by
  induction l with
  | nil => simp [afterFirstCharList]
  | cons y ys ih =>
    intro x hx
    by_cases hy : y = c
    · simp only [afterFirstCharList, if_pos hy] at hx
      simp [hx]
    · simp only [afterFirstCharList, if_neg hy] at hx
      simp [ih x hx]

theorem takeUntilChar_append (c : Char) (a b : String) (ha : c ∉ a.toList) :
    takeUntilChar c (a ++ String.mk (c :: b.toList)) = a := by
  unfold takeUntilChar
  rw [toList_append]
  show String.mk (takeUntilCharList c (a.toList ++ c :: b.toList)) = a
  rw [takeUntilCharList_append c _ _ ha, mk_toList]

theorem afterFirstChar_append (c : Char) (a b : String) (ha : c ∉ a.toList) :
    afterFirstChar c (a ++ String.mk (c :: b.toList)) = b := by
  unfold afterFirstChar
  rw [toList_append]
  show String.mk (afterFirstCharList c (a.toList ++ c :: b.toList)) = b
  rw [afterFirstCharList_append c _ _ ha, mk_toList]

theorem takeUntilChar_of_not_mem (c : Char) (s : String) (h : c ∉ s.toList) :
    takeUntilChar c s = s := by
  unfold takeUntilChar
  rw [takeUntilCharList_of_not_mem c _ h, mk_toList]

theorem replaceMongodbChars_of_no_slash (l : List Char) (h : '/' ∉ l) :
    replaceMongodbChars l = l := by
  induction l using replaceMongodbChars.induct with
  | case1 => simp [replaceMongodbChars]
  | case2 c cs htake ih =>
    exfalso
    have : '/' ∈ (c :: cs).take 10 := by rw [htake]; decide
    exact h (List.take_subset _ _ this)
  | case3 c cs htake ih =>
    rw [replaceMongodbChars, if_neg htake]
    simp only [List.mem_cons, not_or] at h
    rw [ih h.2]

theorem replaceMongodbChars_scheme (l : List Char) :
    replaceMongodbChars ("mongodb://".toList ++ l) = replaceMongodbChars l := by
  have hcons : "mongodb://".toList ++ l = 'm' :: ("ongodb://".toList ++ l) := rfl
  have hlen : ("mongodb://".toList).length = 10 := by decide
  have h1 : ('m' :: ("ongodb://".toList ++ l)).take 10 = "mongodb://".toList := by
    rw [← hcons, ← hlen, List.take_left]
  have h2 : ('m' :: ("ongodb://".toList ++ l)).drop 10 = l := by
    rw [← hcons, ← hlen, List.drop_left]
  rw [hcons, replaceMongodbChars, if_pos h1, h2]

theorem credsPart_spec (creds rest : String)
    (hat : '@' ∉ creds.toList) (hsl : '/' ∉ creds.toList) :
    credsPart ("mongodb://" ++ creds ++ "@" ++ rest) = creds := by
  unfold credsPart replaceMongodb
  have hsplit : "mongodb://" ++ creds ++ "@" ++ rest =
      ("mongodb://" ++ creds) ++ String.mk ('@' :: rest.toList) := by
    rw [String.append_assoc]
    have : ("@" : String) ++ rest = String.mk ('@' :: rest.toList) := by
      cases rest; rfl
    rw [this]
  have hmem : '@' ∉ ("mongodb://" ++ creds).toList := by
    rw [toList_append]
    simp only [List.mem_append, not_or]
    exact ⟨by decide, hat⟩
  rw [hsplit, takeUntilChar_append _ _ _ hmem]
  rw [toList_append, replaceMongodbChars_scheme,
    replaceMongodbChars_of_no_slash _ hsl, mk_toList]

theorem toList_mk (l : List Char) : (String.mk l).toList = l := rfl

theorem append_mid (a m b : String) :
    a ++ m ++ b = a ++ String.mk (m.toList ++ b.toList) := by
  rw [String.append_assoc]
  have : m ++ b = String.mk (m.toList ++ b.toList) := by
    cases m; cases b; rfl
  rw [this]

theorem strContainsChar_iff (c : Char) (s : String) :
    strContainsChar c s = true ↔ c ∈ s.toList := by
  unfold strContainsChar
  exact decide_eq_true_iff

theorem hostsPart_with_rs (rs tail : String) (hrs : '/' ∉ rs.toList) :
    hostsPart (rs ++ "/" ++ tail) = tail := by
  have hshape : rs ++ "/" ++ tail = rs ++ String.mk ('/' :: tail.toList) := append_mid rs "/" tail
  rw [hshape]
  unfold hostsPart
  have hc : strContainsChar '/' (rs ++ String.mk ('/' :: tail.toList)) = true := by
    rw [strContainsChar_iff, toList_append, toList_mk]
    simp
  rw [if_pos hc, afterFirstChar_append _ _ _ hrs]

theorem hostsPart_no_slash (s : String) (h : '/' ∉ s.toList) : hostsPart s = s := by
  unfold hostsPart
  rw [if_neg]
  simp only [strContainsChar_iff]
  exact h

theorem firstHost_pick (h1 more : String) (hcm : ',' ∉ h1.toList) :
    takeUntilChar ',' (h1 ++ "," ++ more) = h1 := by
  have hshape : h1 ++ "," ++ more = h1 ++ String.mk (',' :: more.toList) := append_mid h1 "," more
  rw [hshape, takeUntilChar_append _ _ _ hcm]

theorem firstHost_toList_subset (s : String) :
    ∀ x ∈ (firstHost s).toList, x ∈ s.toList := by
  intro x hx
  unfold firstHost takeUntilChar at hx
  rw [toList_mk] at hx
  have h1 : x ∈ (hostsPart s).toList := takeUntilCharList_subset _ _ x hx
  unfold hostsPart at h1
  by_cases hc : strContainsChar '/' s = true
  · rw [if_pos hc] at h1
    unfold afterFirstChar at h1
    rw [toList_mk] at h1
    exact afterFirstCharList_subset _ _ x h1
  · rw [if_neg hc] at h1
    exact h1

/-- Claim C3: for every shard record, the derived direct connection target is
computed by splitting the host specification on a slash and discarding the
replica-set-name part, splitting the remainder on commas and selecting the
first entry, forming a direct connection string to that single host, and
appending the credentials portion of the primary connection string when it
contains one; a host specification with no slash is handled identically, the
split being a no-op. -/
theorem c3_direct_connection_target
    (rs h1 more mainUri t : String)
    (hrs : '/' ∉ rs.toList) (hcomma : ',' ∉ h1.toList)
    (hs1 : '/' ∉ h1.toList) (hs2 : '/' ∉ more.toList) :
    firstHost (rs ++ "/" ++ (h1 ++ "," ++ more)) = h1
    ∧ hostsPart (h1 ++ "," ++ more) = h1 ++ "," ++ more
    ∧ firstHost (h1 ++ "," ++ more) = h1
    ∧ (strContainsChar '@' mainUri = true →
        shardUri mainUri (rs ++ "/" ++ (h1 ++ "," ++ more)) t =
          "mongodb://" ++ credsPart mainUri ++ "@" ++ h1 ++
            "/?directConnection=true&serverSelectionTimeoutMS=" ++ t ++ "&authSource=admin")
    ∧ (strContainsChar '@' mainUri = false →
        shardUri mainUri (rs ++ "/" ++ (h1 ++ "," ++ more)) t =
          "mongodb://" ++ h1 ++ "/?directConnection=true&serverSelectionTimeoutMS=" ++ t) := by
  have hnos : '/' ∉ (h1 ++ "," ++ more).toList := by
    rw [toList_append, toList_append]
    simp only [List.mem_append, not_or]
    exact ⟨⟨hs1, by decide⟩, hs2⟩
  have hfh : firstHost (rs ++ "/" ++ (h1 ++ "," ++ more)) = h1 := by
    unfold firstHost
    rw [hostsPart_with_rs _ _ hrs, firstHost_pick _ _ hcomma]
  have hnoop : hostsPart (h1 ++ "," ++ more) = h1 ++ "," ++ more :=
    hostsPart_no_slash _ hnos
  refine ⟨hfh, hnoop, ?_, ?_, ?_⟩
  · unfold firstHost
    rw [hnoop, firstHost_pick _ _ hcomma]
  · intro hat
    unfold shardUri
    rw [hat]
    simp only [if_true, hfh]
  · intro hat
    unfold shardUri
    rw [hat]
    simp only [Bool.false_eq_true, if_false, hfh]

/-- Closed instance of the C3 theorem: a shard record with host specification
in replica-set form, probed once with a credentialed primary URI and once
with a credential-free one. -/
theorem c3_direct_connection_target_witness :
    firstHost ("rs0" ++ "/" ++ ("a:27017" ++ "," ++ "b:27018")) = "a:27017"
    ∧ hostsPart ("a:27017" ++ "," ++ "b:27018") = "a:27017" ++ "," ++ "b:27018"
    ∧ firstHost ("a:27017" ++ "," ++ "b:27018") = "a:27017"
    ∧ (strContainsChar '@' "mongodb://u:p@cfg:27019" = true →
        shardUri "mongodb://u:p@cfg:27019" ("rs0" ++ "/" ++ ("a:27017" ++ "," ++ "b:27018")) "3000" =
          "mongodb://" ++ credsPart "mongodb://u:p@cfg:27019" ++ "@" ++ "a:27017" ++
            "/?directConnection=true&serverSelectionTimeoutMS=" ++ "3000" ++ "&authSource=admin")
    ∧ (strContainsChar '@' "mongodb://u:p@cfg:27019" = false →
        shardUri "mongodb://u:p@cfg:27019" ("rs0" ++ "/" ++ ("a:27017" ++ "," ++ "b:27018")) "3000" =
          "mongodb://" ++ "a:27017" ++ "/?directConnection=true&serverSelectionTimeoutMS=" ++ "3000") :=
  c3_direct_connection_target "rs0" "a:27017" "b:27018" "mongodb://u:p@cfg:27019" "3000"
    (by decide) (by decide) (by decide) (by decide)

/-- Claim C4: the credentials embedded in every derived shard connection
string are exactly the credentials substring of the configured primary
connection string, reused verbatim, and a primary connection string without
credentials yields a shard connection string without any. -/
theorem c4_credentials_reused_verbatim
    (creds rest t : String)
    (hat : '@' ∉ creds.toList) (hsl : '/' ∉ creds.toList) (ht : '@' ∉ t.toList) :
    credsPart ("mongodb://" ++ creds ++ "@" ++ rest) = creds
    ∧ (∀ hostStr : String,
        shardUri ("mongodb://" ++ creds ++ "@" ++ rest) hostStr t =
          "mongodb://" ++ creds ++ "@" ++ firstHost hostStr ++
            "/?directConnection=true&serverSelectionTimeoutMS=" ++ t ++ "&authSource=admin")
    ∧ (∀ m hostStr : String, '@' ∉ m.toList → '@' ∉ hostStr.toList →
        '@' ∉ (shardUri m hostStr t).toList) := by
  have hcp := credsPart_spec creds rest hat hsl
  have hcontains : strContainsChar '@' ("mongodb://" ++ creds ++ "@" ++ rest) = true := by
    rw [strContainsChar_iff]
    have hshape : "mongodb://" ++ creds ++ "@" ++ rest =
        ("mongodb://" ++ creds) ++ String.mk ('@' :: rest.toList) := by
      rw [String.append_assoc]
      have : ("@" : String) ++ rest = String.mk ('@' :: rest.toList) := by
        cases rest; rfl
      rw [this]
    rw [hshape, toList_append, toList_mk]
    simp
  refine ⟨hcp, ?_, ?_⟩
  · intro hostStr
    unfold shardUri
    rw [hcontains]
    simp only [if_true, hcp]
  · intro m hostStr hm hh
    have hcf : strContainsChar '@' m = false := by
      unfold strContainsChar
      exact decide_eq_false hm
    unfold shardUri
    rw [hcf]
    simp only [Bool.false_eq_true, if_false]
    simp only [toList_append, List.mem_append, not_or]
    refine ⟨⟨⟨?_, ?_⟩, ?_⟩, ?_⟩
    · decide
    · intro hmem
      exact hh (firstHost_toList_subset hostStr '@' hmem)
    · decide
    · exact ht

/-- Closed instance of the C4 theorem at a concrete credentialed primary URI
and a concrete credential-free one. -/
theorem c4_credentials_reused_verbatim_witness :
    credsPart ("mongodb://" ++ "user:secret" ++ "@" ++ "cfg:27019/admin") = "user:secret"
    ∧ (∀ hostStr : String,
        shardUri ("mongodb://" ++ "user:secret" ++ "@" ++ "cfg:27019/admin") hostStr "5000" =
          "mongodb://" ++ "user:secret" ++ "@" ++ firstHost hostStr ++
            "/?directConnection=true&serverSelectionTimeoutMS=" ++ "5000" ++ "&authSource=admin")
    ∧ (∀ m hostStr : String, '@' ∉ m.toList → '@' ∉ hostStr.toList →
        '@' ∉ (shardUri m hostStr "5000").toList) :=
  c4_credentials_reused_verbatim "user:secret" "cfg:27019/admin" "5000"
    (by decide) (by decide) (by decide)

theorem b64Index_b64Char_lt : ∀ n < 64, b64Index (b64Char n) = some n := by decide

theorem b64Char_ne_pad (n : Nat) : b64Char n ≠ '=' := by
  by_cases h : n < 64
  · have hall : ∀ m < 64, b64Char m ≠ '=' := by decide
    exact hall n h
  · unfold b64Char
    rw [List.getD_eq_default]
    · decide
    · have : b64Alphabet.length = 64 := by decide
      omega

theorem decodeGroups_encodeGroups :
    ∀ bs : List Nat, (∀ b ∈ bs, b < 256) → decodeGroups (encodeGroups bs) = some bs
  | [] => fun _ => rfl
  | [b1] => fun h => by
    have hb1 : b1 < 256 := h b1 (by simp)
    simp only [encodeGroups, decodeGroups]
    rw [if_pos (by simp)]
    rw [b64Index_b64Char_lt _ (by omega), b64Index_b64Char_lt _ (by omega)]
    simp only
    rw [if_pos (by omega)]
    have he : b1 / 4 * 4 + b1 % 4 * 16 / 16 = b1 := by omega
    rw [he]
  | [b1, b2] => fun h => by
    have hb1 : b1 < 256 := h b1 (by simp)
    have hb2 : b2 < 256 := h b2 (by simp)
    simp only [encodeGroups, decodeGroups]
    rw [if_neg (by simp [b64Char_ne_pad])]
    rw [if_pos (by simp)]
    rw [b64Index_b64Char_lt _ (by omega), b64Index_b64Char_lt _ (by omega),
      b64Index_b64Char_lt _ (by omega)]
    simp only
    rw [if_pos (by omega)]
    have he1 : b1 / 4 * 4 + (b1 % 4 * 16 + b2 / 16) / 16 = b1 := by omega
    have he2 : (b1 % 4 * 16 + b2 / 16) % 16 * 16 + b2 % 16 * 4 / 4 = b2 := by omega
    rw [he1, he2]
  | b1 :: b2 :: b3 :: rest => fun h => by
    have hb1 : b1 < 256 := h b1 (by simp)
    have hb2 : b2 < 256 := h b2 (by simp)
    have hb3 : b3 < 256 := h b3 (by simp)
    have ih := decodeGroups_encodeGroups rest (fun b hb => h b (by simp [hb]))
    simp only [encodeGroups, decodeGroups]
    rw [if_neg (by simp [b64Char_ne_pad])]
    rw [if_neg (by simp [b64Char_ne_pad])]
    rw [b64Index_b64Char_lt _ (by omega), b64Index_b64Char_lt _ (by omega),
      b64Index_b64Char_lt _ (by omega), b64Index_b64Char_lt _ (by omega), ih]
    simp only
    have he1 : b1 / 4 * 4 + (b1 % 4 * 16 + b2 / 16) / 16 = b1 := by omega
    have he2 : (b1 % 4 * 16 + b2 / 16) % 16 * 16 + (b2 % 16 * 4 + b3 / 64) / 4 = b2 := by omega
    have he3 : (b2 % 16 * 4 + b3 / 64) % 4 * 64 + b3 % 64 = b3 := by omega
    rw [he1, he2, he3]

theorem parseHex_hex2 : ∀ n < 256, parseHexList (hex2 n).toList = some n := by decide

/-! ### Round-trip of the codec -/
mutual

theorem decode_encode : ∀ v : BVal, wf v = true → decode (encode v) = some v
  | .null, _ => rfl
  | .bool b, _ => rfl
  | .num n, _ => rfl
  | .str s, _ => rfl
  | .oid s, h => by
    simp only [wf, Bool.and_eq_true, decide_eq_true_eq] at h
    simp [decode, encode, hasKey, jget, h.1, h.2]
  | .date m, _ => by
    simp [decode, encode, hasKey, jget]
  | .regex p flags, h => by
    simp only [wf, decide_eq_true_eq] at h
    simp [decode, encode, hasKey, jget, h]
  | .binary st bytes, h => by
    simp only [wf, Bool.and_eq_true, decide_eq_true_eq, List.all_eq_true] at h
    obtain ⟨hst, hbytes⟩ := h
    have hb : ∀ b ∈ bytes, b < 256 := fun b hbm => by simpa using hbytes b hbm
    have hpx : parseHexList (hex2 st).data = some st := parseHex_hex2 st hst
    simp [decode, encode, hasKey, jget, hpx,
      decodeGroups_encodeGroups bytes hb, toList_mk, hst]
  | .arr xs, h => by
    simp only [wf] at h
    simp [decode, encode, decodeList_encodeList xs h]
  | .doc fs, h => by
    simp only [wf, Bool.and_eq_true, List.all_eq_true] at h
    obtain ⟨hkeys, hfs⟩ := h
    have h1 := hkeys "$oid" (by simp [extTagKeys])
    have h2 := hkeys "$date" (by simp [extTagKeys])
    have h3 := hkeys "$regex" (by simp [extTagKeys])
    have h4 := hkeys "$binary" (by simp [extTagKeys])
    have h5 := hkeys "$regularExpression" (by simp [extTagKeys])
    simp only [Bool.not_eq_true'] at h1 h2 h3 h4 h5
    simp [decode, encode, h1, h2, h3, h4, h5, decodeFields_encodeFields fs hfs]

theorem decodeList_encodeList : ∀ xs : List BVal, wfList xs = true →
    decodeList (encodeList xs) = some xs
  | [], _ => rfl
  | x :: xs, h => by
    simp only [wfList, Bool.and_eq_true] at h
    simp [encodeList, decodeList, decode_encode x h.1, decodeList_encodeList xs h.2]

theorem decodeFields_encodeFields : ∀ fs : List (String × BVal), wfFields fs = true →
    decodeFields (encodeFields fs) = some fs
  | [], _ => rfl
  | (k, v) :: tl, h => by
    simp only [wfFields, Bool.and_eq_true] at h
    simp [encodeFields, decodeFields, decode_encode v h.1, decodeFields_encodeFields tl h.2]

end

/-- Claim C5 as stated is false: decode-then-encode is not the identity on
every valid payload containing supported extended types.  The canonical
regular-expression spelling is accepted by the decoder, but the serializer
re-encodes the value in the legacy spelling, so this valid payload does not
survive the round trip unchanged. -/
theorem c5_decode_then_encode_counterexample :
    Option.map encode (decode (Json.obj [("$regularExpression",
        Json.obj [("pattern", Json.str "a"), ("options", Json.str "")])])) =
      some (Json.obj [("$regex", Json.str "a"), ("$options", Json.str "")])
    ∧ Json.obj [("$regex", Json.str "a"), ("$options", Json.str "")] ≠
      Json.obj [("$regularExpression",
        Json.obj [("pattern", Json.str "a"), ("options", Json.str "")])] :=
  ⟨rfl, by simp⟩

/-- Claim C5, amended: the re-encoding is lossless at the value level rather
than at the payload level.  For every well-formed decoded value — valid
lowercased object identifiers, canonical regex option lists, byte-sized
binary payloads, and no document field named like an extended-type tag —
encoding and decoding again returns exactly that value; consequently
decode-then-encode is the identity on every payload in the encoder's image,
i.e. on payloads already in the serializer's canonical spelling. -/
theorem c5_roundtrip_canonical (v : BVal) (h : wf v = true) :
    decode (encode v) = some v
    ∧ Option.map encode (decode (encode v)) = some (encode v) := by
  have hd := decode_encode v h
  refine ⟨hd, ?_⟩
  rw [hd]
  rfl

/-- Closed instance of the amended C5 theorem at a value containing all four
modelled extended types. -/
theorem c5_roundtrip_canonical_witness :
    wf (BVal.doc [("a", BVal.arr [BVal.oid "0123456789abcdef01234567",
        BVal.date 5, BVal.regex "x" ['i', 'm'], BVal.binary 0 [1, 255]])]) = true
    ∧ (decode (encode (BVal.doc [("a", BVal.arr [BVal.oid "0123456789abcdef01234567",
        BVal.date 5, BVal.regex "x" ['i', 'm'], BVal.binary 0 [1, 255]])])) =
      some (BVal.doc [("a", BVal.arr [BVal.oid "0123456789abcdef01234567",
        BVal.date 5, BVal.regex "x" ['i', 'm'], BVal.binary 0 [1, 255]])])
    ∧ Option.map encode (decode (encode (BVal.doc [("a",
        BVal.arr [BVal.oid "0123456789abcdef01234567", BVal.date 5,
          BVal.regex "x" ['i', 'm'], BVal.binary 0 [1, 255]])]))) =
      some (encode (BVal.doc [("a", BVal.arr [BVal.oid "0123456789abcdef01234567",
        BVal.date 5, BVal.regex "x" ['i', 'm'], BVal.binary 0 [1, 255]])]))) :=
  ⟨by decide, c5_roundtrip_canonical _ (by decide)⟩

/-! ## Claim theorems about authentication and routing -/
theorem requireApiKey_reject (apiKey : String) (key : Option String) (h : Unit → Nat × Json)
    (hbad : key = none ∨ ∀ k, key = some k → k ≠ apiKey) :
    requireApiKey apiKey key h = (401, errBody "Unauthorized - Invalid or missing API key") := by
  cases key with
  | none => rfl
  | some k =>
    rcases hbad with h1 | h2
    · exact absurd h1 (by simp)
    · show (if k = "" ∨ k ≠ apiKey then
          (401, errBody "Unauthorized - Invalid or missing API key") else h ()) =
        (401, errBody "Unauthorized - Invalid or missing API key")
      rw [if_pos (Or.inr (h2 k rfl))]

/-- Claim C6: every route other than the health check rejects a missing or
mismatching token with status 401 and the uniform error body, before any
database operation runs (the response is independent of every oracle and of
the request body); the health check runs without any token. -/
theorem c6_auth_rejects_before_db (w w' : World) (r : Route) (key : Option String)
    (body body' : Option Json)
    (hr : r ≠ .health)
    (hbad : key = none ∨ ∀ k, key = some k → k ≠ w.apiKey) :
    dispatch w r key body = (401, errBody "Unauthorized - Invalid or missing API key")
    ∧ (w'.apiKey = w.apiKey → dispatch w' r key body' = dispatch w r key body)
    ∧ (∀ anyKey : Option String, dispatch w .health anyKey body = indexHandler) := by
  have hbad' : ∀ ak : String, ak = w.apiKey →
      (key = none ∨ ∀ k, key = some k → k ≠ ak) := by
    intro ak hak
    rw [hak]
    exact hbad
  refine ⟨?_, ?_, fun _ => rfl⟩
  · cases r
    case health => exact absurd rfl hr
    all_goals
      simp only [dispatch]
      exact requireApiKey_reject _ _ _ hbad
  · intro he
    cases r
    case health => rfl
    all_goals
      simp only [dispatch]
      rw [requireApiKey_reject _ _ _ (hbad' w'.apiKey he),
        requireApiKey_reject _ _ _ hbad]

/-- Closed instance of the C6 theorem: a wrong key against `/query` on two
worlds with different database oracles. -/
theorem c6_auth_rejects_before_db_witness :
    dispatch demoWorld .queryRoute (some "wrong") none =
      (401, errBody "Unauthorized - Invalid or missing API key")
    ∧ (demoWorldB.apiKey = demoWorld.apiKey →
        dispatch demoWorldB .queryRoute (some "wrong") (some (Json.num 1)) =
          dispatch demoWorld .queryRoute (some "wrong") none)
    ∧ (∀ anyKey : Option String, dispatch demoWorld .health anyKey none = indexHandler) :=
  c6_auth_rejects_before_db demoWorld demoWorldB .queryRoute (some "wrong") none (some (Json.num 1))
    (by simp)
    (Or.inr (fun k hk => by
      cases hk
      simp [demoWorld]))

/-! ### Lemmas about sorting, deduplication and the merge folds -/
theorem mem_insertSorted (x a : String) (l : List String) :
    a ∈ insertSorted x l ↔ a = x ∨ a ∈ l := by
  induction l with
  | nil => simp [insertSorted]
  | cons y ys ih =>
    by_cases h : strLe x y = true
    · simp [insertSorted, h]
    · simp only [insertSorted, if_neg h, List.mem_cons, ih]
      tauto

theorem mem_sortStrings (a : String) (l : List String) :
    a ∈ sortStrings l ↔ a ∈ l := by
  induction l with
  | nil => simp [sortStrings]
  | cons x xs ih => simp [sortStrings, mem_insertSorted, ih]

theorem mem_dedupStr (l : List String) : ∀ a, a ∈ dedupStr l ↔ a ∈ l := by
  induction l with
  | nil => intro a; simp [dedupStr]
  | cons x xs ih =>
    intro a
    show a ∈ (if x ∈ dedupStr xs then dedupStr xs else x :: dedupStr xs) ↔ a ∈ x :: xs
    by_cases h : x ∈ dedupStr xs
    · rw [if_pos h, ih a]
      constructor
      · intro hx
        exact List.mem_cons_of_mem x hx
      · intro hx
        rcases List.mem_cons.mp hx with h1 | h1
        · rw [h1]; exact (ih x).mp h
        · exact h1
    · rw [if_neg h]
      simp [ih a]

theorem mem_sortedSetOf (a : String) (l : List String) :
    a ∈ sortedSetOf l ↔ a ∈ l := by
  unfold sortedSetOf
  rw [mem_sortStrings, mem_dedupStr l a]

theorem addDbName_shards_mem (acc : List DbEntry) (sid n : String) (e : DbEntry)
    (he : e ∈ addDbName acc sid n) :
    ∀ s ∈ e.shards, (∃ e0 ∈ acc, s ∈ e0.shards) ∨ s = sid := by
  intro s hs
  unfold addDbName at he
  by_cases hany : acc.any (fun e0 => e0.name = n) = true
  · rw [if_pos hany] at he
    obtain ⟨e0, he0, hfe⟩ := List.mem_map.mp he
    by_cases hname : e0.name = n
    · rw [if_pos hname] at hfe
      rw [← hfe] at hs
      simp only at hs
      rcases List.mem_append.mp hs with h | h
      · exact .inl ⟨e0, he0, h⟩
      · simp at h; exact .inr h
    · rw [if_neg hname] at hfe
      exact .inl ⟨e0, he0, hfe ▸ hs⟩
  · rw [if_neg hany] at he
    rcases List.mem_append.mp he with h | h
    · exact .inl ⟨e, h, hs⟩
    · simp at h
      rw [h] at hs
      simp at hs
      exact .inr hs

theorem mergeShardDbs_shards_mem (dbs : List String) (acc : List DbEntry) (sid : String)
    (e : DbEntry) (he : e ∈ mergeShardDbs acc sid dbs) :
    ∀ s ∈ e.shards, (∃ e0 ∈ acc, s ∈ e0.shards) ∨ s = sid := by
  induction dbs generalizing acc with
  | nil =>
    intro s hs
    exact .inl ⟨e, he, hs⟩
  | cons d ds ih =>
    intro s hs
    have he2 : e ∈ mergeShardDbs (addDbName acc sid d) sid ds := he
    rcases ih (addDbName acc sid d) he2 s hs with ⟨e0, he0, hs0⟩ | hsid
    · rcases addDbName_shards_mem acc sid d e0 he0 s hs0 with h | h
      · exact .inl h
      · exact .inr h
    · exact .inr hsid

theorem addDbName_names (acc : List DbEntry) (sid n m : String) :
    (∃ e ∈ addDbName acc sid n, e.name = m) ↔ (∃ e ∈ acc, e.name = m) ∨ m = n := by
  unfold addDbName
  by_cases hany : acc.any (fun e0 => e0.name = n) = true
  · rw [if_pos hany]
    constructor
    · rintro ⟨e, he, hname⟩
      obtain ⟨e0, he0, hfe⟩ := List.mem_map.mp he
      by_cases h0 : e0.name = n
      · rw [if_pos h0] at hfe
        rw [← hfe] at hname
        simp only at hname
        exact .inl ⟨e0, he0, hname⟩
      · rw [if_neg h0] at hfe
        exact .inl ⟨e0, he0, hfe ▸ hname⟩
    · rintro (⟨e, he, hname⟩ | hm)
      · by_cases h0 : e.name = n
        · refine ⟨{ e with shards := e.shards ++ [sid] }, ?_, hname⟩
          apply List.mem_map.mpr
          exact ⟨e, he, by rw [if_pos h0]⟩
        · refine ⟨e, ?_, hname⟩
          apply List.mem_map.mpr
          exact ⟨e, he, by rw [if_neg h0]⟩
      · obtain ⟨e, he, hname⟩ := List.any_eq_true.mp hany
        simp only [decide_eq_true_eq] at hname
        by_cases h0 : e.name = n
        · refine ⟨{ e with shards := e.shards ++ [sid] }, ?_, by simpa [hm]⟩
          apply List.mem_map.mpr
          exact ⟨e, he, by rw [if_pos h0]⟩
        · exact absurd hname h0
  · rw [if_neg hany]
    constructor
    · rintro ⟨e, he, hname⟩
      rcases List.mem_append.mp he with h | h
      · exact .inl ⟨e, h, hname⟩
      · simp at h
        rw [h] at hname
        exact .inr hname.symm
    · rintro (⟨e, he, hname⟩ | hm)
      · exact ⟨e, List.mem_append.mpr (.inl he), hname⟩
      · exact ⟨{ name := n, shards := [sid] },
          List.mem_append.mpr (.inr (by simp)), hm.symm⟩

theorem mergeShardDbs_fresh (sid : String) (dbs : List String) (acc : List DbEntry)
    (hnd : dbs.Nodup) (hdisj : ∀ n ∈ dbs, ∀ e ∈ acc, e.name ≠ n) :
    mergeShardDbs acc sid dbs = acc ++ dbs.map (fun n => { name := n, shards := [sid] }) := by
  induction dbs generalizing acc with
  | nil => simp [mergeShardDbs]
  | cons d ds ih =>
    have hnd2 := List.nodup_cons.mp hnd
    have hany : acc.any (fun e0 => e0.name = d) = false := by
      rw [List.any_eq_false]
      intro e he
      simp only [decide_eq_true_eq]
      exact hdisj d (by simp) e he
    have hstep : addDbName acc sid d = acc ++ [{ name := d, shards := [sid] }] := by
      unfold addDbName
      rw [if_neg (by rw [hany]; simp)]
    have hrest : mergeShardDbs acc sid (d :: ds) =
        mergeShardDbs (addDbName acc sid d) sid ds := rfl
    have hdisj2 : ∀ n ∈ ds, ∀ e ∈ acc ++ [{ name := d, shards := [sid] }], e.name ≠ n := by
      intro n hn e he
      rcases List.mem_append.mp he with h | h
      · exact hdisj n (by simp [hn]) e h
      · simp only [List.mem_singleton] at h
        rw [h]
        intro hdn
        apply hnd2.1
        have hde : d = n := hdn
        rw [hde]
        exact hn
    rw [hrest, hstep, ih _ hnd2.2 hdisj2]
    simp

theorem addCfgFold_names (names : List String) (acc : List DbEntry) (n : String) :
    (∃ e ∈ names.foldl (fun a m => if a.any (fun e2 => e2.name = m) then a
        else a ++ [{ name := m, shards := ["config"] }]) acc, e.name = n) ↔
    (∃ e ∈ acc, e.name = n) ∨ n ∈ names := by
  induction names generalizing acc with
  | nil => simp
  | cons m ms ih =>
    have hstep : ∀ a : List DbEntry, (∃ e ∈ (if a.any (fun e2 => e2.name = m) then a
        else a ++ [{ name := m, shards := ["config"] }]), e.name = n) ↔
        (∃ e ∈ a, e.name = n) ∨ n = m := by
      intro a
      by_cases h : a.any (fun e2 => e2.name = m) = true
      · rw [if_pos h]
        constructor
        · exact fun hx => .inl hx
        · rintro (hx | hx)
          · exact hx
          · obtain ⟨e, he, hname⟩ := List.any_eq_true.mp h
            simp only [decide_eq_true_eq] at hname
            exact ⟨e, he, by rw [hname, hx]⟩
      · rw [if_neg h]
        constructor
        · rintro ⟨e, he, hname⟩
          rcases List.mem_append.mp he with hx | hx
          · exact .inl ⟨e, hx, hname⟩
          · simp at hx
            rw [hx] at hname
            exact .inr hname.symm
        · rintro (⟨e, he, hname⟩ | hx)
          · exact ⟨e, List.mem_append.mpr (.inl he), hname⟩
          · exact ⟨{ name := m, shards := ["config"] },
              List.mem_append.mpr (.inr (by simp)), hx.symm⟩
    rw [List.foldl_cons, ih, hstep]
    simp only [List.mem_cons]
    exact or_assoc

theorem addCfgFold_shape (names : List String) (acc : List DbEntry) (e : DbEntry)
    (he : e ∈ names.foldl (fun a m => if a.any (fun e2 => e2.name = m) then a
        else a ++ [{ name := m, shards := ["config"] }]) acc) :
    e ∈ acc ∨ (e.name ∈ names ∧ e.shards = ["config"]) := by
  induction names generalizing acc with
  | nil => exact .inl he
  | cons m ms ih =>
    rw [List.foldl_cons] at he
    rcases ih _ he with hx | hx
    · by_cases h : acc.any (fun e2 => e2.name = m) = true
      · rw [if_pos h] at hx
        exact .inl hx
      · rw [if_neg h] at hx
        rcases List.mem_append.mp hx with h2 | h2
        · exact .inl h2
        · simp at h2
          rw [h2]
          exact .inr ⟨by simp, rfl⟩
    · exact .inr ⟨by simp [hx.1], hx.2⟩

theorem addConfigDbs_names (acc : List DbEntry) (n : String) :
    (∃ e ∈ addConfigDbs acc, e.name = n) ↔ (∃ e ∈ acc, e.name = n) ∨ n ∈ configDbNames :=
  addCfgFold_names configDbNames acc n

theorem addConfigDbs_shape (acc : List DbEntry) (e : DbEntry) (he : e ∈ addConfigDbs acc) :
    e ∈ acc ∨ (e.name ∈ configDbNames ∧ e.shards = ["config"]) :=
  addCfgFold_shape configDbNames acc e he

theorem probeShardDbs_eq (w : World) (s : ShardRec) :
    probeShardDbs w s = (match w.net (shardUri w.mongoUri s.host "3000") with
      | .ok view => ((true, view.dbNames, none),
          [ConnEvent.opened (shardUri w.mongoUri s.host "3000"),
           ConnEvent.closed (shardUri w.mongoUri s.host "3000")])
      | .error e => ((false, [], some e),
          [ConnEvent.opened (shardUri w.mongoUri s.host "3000")])) := rfl

theorem probeShardColls_eq (w : World) (db : String) (s : ShardRec) :
    probeShardColls w db s = (match w.net (shardUri w.mongoUri s.host "3000") with
      | .ok view => ((true, if db ∈ view.dbNames then view.collNames db else [], none),
          [ConnEvent.opened (shardUri w.mongoUri s.host "3000"),
           ConnEvent.closed (shardUri w.mongoUri s.host "3000")])
      | .error e => ((false, [], some e),
          [ConnEvent.opened (shardUri w.mongoUri s.host "3000")])) := rfl

theorem probeShardPing_eq (w : World) (s : ShardRec) :
    probeShardPing w s = (match w.net (shardUri w.mongoUri s.host "3000") with
      | .ok _ => ((true, none),
          [ConnEvent.opened (shardUri w.mongoUri s.host "3000"),
           ConnEvent.closed (shardUri w.mongoUri s.host "3000")])
      | .error e => ((false, some e),
          [ConnEvent.opened (shardUri w.mongoUri s.host "3000")])) := rfl

theorem probeShardDbs_offline (w : World) (s : ShardRec)
    (h : (probeShardDbs w s).1.1 = false) :
    (probeShardDbs w s).1.2.1 = [] ∧ (∃ m, (probeShardDbs w s).1.2.2 = some m) := by
  have heq := probeShardDbs_eq w s
  cases hnet : w.net (shardUri w.mongoUri s.host "3000") with
  | ok v =>
    rw [hnet] at heq
    rw [heq] at h
    simp at h
  | error e =>
    rw [hnet] at heq
    rw [heq]
    exact ⟨rfl, e, rfl⟩

theorem probeShardColls_offline (w : World) (db : String) (s : ShardRec)
    (h : (probeShardColls w db s).1.1 = false) :
    (probeShardColls w db s).1.2.1 = [] ∧ (∃ m, (probeShardColls w db s).1.2.2 = some m) := by
  have heq := probeShardColls_eq w db s
  cases hnet : w.net (shardUri w.mongoUri s.host "3000") with
  | ok v =>
    rw [hnet] at heq
    rw [heq] at h
    simp at h
  | error e =>
    rw [hnet] at heq
    rw [heq]
    exact ⟨rfl, e, rfl⟩

theorem probeShardPing_offline (w : World) (s : ShardRec)
    (h : (probeShardPing w s).1.1 = false) :
    ∃ m, (probeShardPing w s).1.2 = some m := by
  have heq := probeShardPing_eq w s
  cases hnet : w.net (shardUri w.mongoUri s.host "3000") with
  | ok v =>
    rw [hnet] at heq
    rw [heq] at h
    simp at h
  | error e =>
    rw [hnet] at heq
    rw [heq]
    exact ⟨e, rfl⟩

theorem countP_add_countP_not {α : Type} (l : List α) (p : α → Bool) :
    l.countP p + l.countP (fun a => !p a) = l.length := by
  induction l with
  | nil => simp
  | cons x xs ih =>
    simp only [List.countP_cons, List.length_cons]
    cases h : p x <;> simp [h] <;> omega

theorem foldMergeProbes_shards
    (probes : List (ShardRec × ((Bool × List String × Option String) × List ConnEvent)))
    (acc : List DbEntry) :
    ∀ e ∈ probes.foldl (fun a p => if p.2.1.1 then mergeShardDbs a p.1.id p.2.1.2.1 else a) acc,
    ∀ s ∈ e.shards,
      (∃ e0 ∈ acc, s ∈ e0.shards) ∨ ∃ p ∈ probes, p.2.1.1 = true ∧ s = p.1.id := by
  induction probes generalizing acc with
  | nil => exact fun e he s hs => .inl ⟨e, he, hs⟩
  | cons p ps ih =>
    intro e he s hs
    rw [List.foldl_cons] at he
    rcases ih _ e he s hs with ⟨e0, he0, hs0⟩ | ⟨q, hq, hq2⟩
    · by_cases hon : p.2.1.1 = true
      · rw [if_pos hon] at he0
        rcases mergeShardDbs_shards_mem _ _ _ e0 he0 s hs0 with ⟨e1, he1, hs1⟩ | hsid
        · exact .inl ⟨e1, he1, hs1⟩
        · exact .inr ⟨p, by simp, hon, hsid⟩
      · rw [if_neg hon] at he0
        exact .inl ⟨e0, he0, hs0⟩
    · exact .inr ⟨q, by simp [hq], hq2⟩

theorem contribs_cons
    (p : ShardRec × ((Bool × List String × Option String) × List ConnEvent))
    (ps : List (ShardRec × ((Bool × List String × Option String) × List ConnEvent)))
    (n : String) :
    contribs (p :: ps) n =
      (if (p.2.1.1 && decide (n ∈ p.2.1.2.1)) = true then [p.1.id] else [])
        ++ contribs ps n := by
  by_cases h : (p.2.1.1 && decide (n ∈ p.2.1.2.1)) = true
  · simp [contribs, List.filter_cons, h]
  · simp [contribs, List.filter_cons, h]

theorem contribs_eq_nil
    (probes : List (ShardRec × ((Bool × List String × Option String) × List ConnEvent)))
    (n : String)
    (h : ∀ p ∈ probes, ¬(p.2.1.1 = true ∧ n ∈ p.2.1.2.1)) :
    contribs probes n = [] := by
  induction probes with
  | nil => rfl
  | cons p ps ih =>
    have hp := h p (List.mem_cons_self p ps)
    rw [contribs_cons, if_neg (by simpa using hp),
      ih (fun q hq => h q (List.mem_cons_of_mem p hq))]
    rfl

theorem addMap_names (acc : List DbEntry) (sid d : String) :
    ((acc.map (fun e0 => if e0.name = d then { e0 with shards := e0.shards ++ [sid] }
        else e0)).map (fun e => e.name)) = acc.map (fun e => e.name) := by
  induction acc with
  | nil => rfl
  | cons x xs ih =>
    by_cases h : x.name = d
    · simp [h, ih]
    · simp [h, ih]

/-- Full characterization of one `addDbName` step
(src/mongodb_bridge.py:650-654): names stay duplicate-free, an entry whose
name is the added one gets the shard identifier appended (the line-654
append branch), every other entry is untouched, and an unseen name becomes a
fresh entry holding just this identifier. -/
theorem addDbName_spec (acc : List DbEntry) (sid d : String)
    (hacc : (acc.map (fun e => e.name)).Nodup) :
    ((addDbName acc sid d).map (fun e => e.name)).Nodup
    ∧ (∀ e ∈ addDbName acc sid d,
        (∃ e0 ∈ acc, e0.name = e.name
          ∧ e.shards = e0.shards ++ (if e.name = d then [sid] else []))
        ∨ ((∀ e0 ∈ acc, e0.name ≠ e.name) ∧ e.name = d ∧ e.shards = [sid])) := by
  unfold addDbName
  by_cases hany : acc.any (fun e0 => e0.name = d) = true
  · rw [if_pos hany]
    constructor
    · rw [addMap_names]
      exact hacc
    · intro e he
      obtain ⟨e0, he0, hfe⟩ := List.mem_map.mp he
      by_cases h0 : e0.name = d
      · rw [if_pos h0] at hfe
        subst hfe
        left
        refine ⟨e0, he0, rfl, ?_⟩
        simp [h0]
      · rw [if_neg h0] at hfe
        subst hfe
        left
        refine ⟨e0, he0, rfl, ?_⟩
        simp [h0]
  · rw [if_neg hany]
    have hnone : ∀ e0 ∈ acc, e0.name ≠ d := by
      intro e0 h0 hname
      exact hany (List.any_eq_true.mpr ⟨e0, h0, by simp [hname]⟩)
    constructor
    · have hmap : (acc ++ [({ name := d, shards := [sid] } : DbEntry)]).map (fun e => e.name)
          = acc.map (fun e => e.name) ++ [d] := by simp
      rw [hmap, List.nodup_append]
      refine ⟨hacc, List.nodup_singleton d, ?_⟩
      intro a ha hb
      simp only [List.mem_singleton] at hb
      rw [hb] at ha
      obtain ⟨e0, he0, hn0⟩ := List.mem_map.mp ha
      exact hnone e0 he0 hn0
    · intro e he
      rcases List.mem_append.mp he with h | h
      · left
        refine ⟨e, h, rfl, ?_⟩
        have hne : e.name ≠ d := hnone e h
        simp [hne]
      · simp only [List.mem_singleton] at h
        subst h
        right
        exact ⟨fun e0 h0 => hnone e0 h0, rfl, rfl⟩

/-- Full characterization of merging one reachable shard's duplicate-free
database list: names stay duplicate-free, an existing entry named in the
list gets the identifier appended, the other existing entries are untouched,
and each fresh name yields an entry holding just this identifier. -/
theorem mergeShardDbs_spec (dbs : List String) (acc : List DbEntry) (sid : String)
    (hacc : (acc.map (fun e => e.name)).Nodup) (hdbs : dbs.Nodup) :
    ((mergeShardDbs acc sid dbs).map (fun e => e.name)).Nodup
    ∧ (∀ n, (∃ e ∈ mergeShardDbs acc sid dbs, e.name = n) ↔
        (∃ e ∈ acc, e.name = n) ∨ n ∈ dbs)
    ∧ (∀ e ∈ mergeShardDbs acc sid dbs,
        (∃ e0 ∈ acc, e0.name = e.name
          ∧ e.shards = e0.shards ++ (if e.name ∈ dbs then [sid] else []))
        ∨ ((∀ e0 ∈ acc, e0.name ≠ e.name) ∧ e.name ∈ dbs ∧ e.shards = [sid])) := by
  induction dbs generalizing acc with
  | nil =>
    refine ⟨hacc, by simp [mergeShardDbs], ?_⟩
    intro e he
    exact .inl ⟨e, he, rfl, by simp⟩
  | cons d ds ih =>
    obtain ⟨hd, hds⟩ := List.nodup_cons.mp hdbs
    obtain ⟨a1, a3⟩ := addDbName_spec acc sid d hacc
    obtain ⟨i1, i2, i3⟩ := ih (addDbName acc sid d) a1 hds
    have hfold : mergeShardDbs acc sid (d :: ds) =
        mergeShardDbs (addDbName acc sid d) sid ds := rfl
    rw [hfold]
    refine ⟨i1, ?_, ?_⟩
    · intro n
      rw [i2 n, addDbName_names acc sid d n]
      simp only [List.mem_cons]
      exact or_assoc
    · intro e he
      rcases i3 e he with ⟨e1, he1, hn1, hs1⟩ | ⟨hnone1, hmem1, hs1⟩
      · rcases a3 e1 he1 with ⟨e0, he0, hn0, hs0⟩ | ⟨hnone0, hd0, hs0⟩
        · left
          refine ⟨e0, he0, hn0.trans hn1, ?_⟩
          rw [hs1, hs0, hn1, List.append_assoc]
          by_cases hed : e.name = d
          · simp [hed, hd]
          · by_cases heds : e.name ∈ ds
            · simp [hed, heds]
            · simp [hed, heds]
        · right
          have hne : e.name = d := hn1.symm.trans hd0
          refine ⟨?_, List.mem_cons.mpr (.inl hne), ?_⟩
          · intro e0 h0
            rw [← hn1]
            exact hnone0 e0 h0
          · rw [hs1, hs0]
            have hnotds : e.name ∉ ds := by rw [hne]; exact hd
            simp [hnotds]
      · right
        have hnoacc : ∀ e0 ∈ acc, e0.name ≠ e.name := by
          intro e0 h0 hn
          obtain ⟨e2, he2, hn2⟩ :=
            (addDbName_names acc sid d e.name).mpr (.inl ⟨e0, h0, hn⟩)
          exact hnone1 e2 he2 hn2
        exact ⟨hnoacc, List.mem_cons.mpr (.inr hmem1), hs1⟩

/-- Full characterization of the whole shard merge loop of
`list_available_databases` over an arbitrary probe list with duplicate-free
per-shard listings: the resulting names are duplicate-free, and every entry
carries, after whatever it had in the accumulator, exactly the identifiers
of the reachable shards whose listing contained its name, in probe order. -/
theorem foldMerge_spec
    (probes : List (ShardRec × ((Bool × List String × Option String) × List ConnEvent)))
    (acc : List DbEntry)
    (hnd : ∀ p ∈ probes, p.2.1.1 = true → p.2.1.2.1.Nodup)
    (hacc : (acc.map (fun e => e.name)).Nodup) :
    ((probes.foldl (fun a p => if p.2.1.1 then mergeShardDbs a p.1.id p.2.1.2.1 else a)
        acc).map (fun e => e.name)).Nodup
    ∧ (∀ n, (∃ e ∈ probes.foldl (fun a p =>
          if p.2.1.1 then mergeShardDbs a p.1.id p.2.1.2.1 else a) acc, e.name = n) ↔
        (∃ e ∈ acc, e.name = n) ∨ (∃ p ∈ probes, p.2.1.1 = true ∧ n ∈ p.2.1.2.1))
    ∧ (∀ e ∈ probes.foldl (fun a p =>
          if p.2.1.1 then mergeShardDbs a p.1.id p.2.1.2.1 else a) acc,
        (∃ e0 ∈ acc, e0.name = e.name ∧ e.shards = e0.shards ++ contribs probes e.name)
        ∨ ((∀ e0 ∈ acc, e0.name ≠ e.name) ∧ e.shards = contribs probes e.name)) := by
  induction probes generalizing acc with
  | nil =>
    refine ⟨hacc, by simp, ?_⟩
    intro e he
    exact .inl ⟨e, he, rfl, by simp [contribs]⟩
  | cons p ps ih =>
    simp only [List.foldl_cons]
    by_cases hon : p.2.1.1 = true
    · rw [if_pos hon]
      have hdbs : p.2.1.2.1.Nodup := hnd p (List.mem_cons_self p ps) hon
      obtain ⟨m1, m2, m3⟩ := mergeShardDbs_spec p.2.1.2.1 acc p.1.id hacc hdbs
      obtain ⟨i1, i2, i3⟩ := ih (mergeShardDbs acc p.1.id p.2.1.2.1)
        (fun q hq hq1 => hnd q (List.mem_cons_of_mem p hq) hq1) m1
      refine ⟨i1, ?_, ?_⟩
      · intro n
        rw [i2 n, m2 n]
        constructor
        · rintro ((h | h) | ⟨q, hq, hq1, hq2⟩)
          · exact .inl h
          · exact .inr ⟨p, List.mem_cons_self p ps, hon, h⟩
          · exact .inr ⟨q, List.mem_cons_of_mem p hq, hq1, hq2⟩
        · rintro (h | ⟨q, hq, hq1, hq2⟩)
          · exact .inl (.inl h)
          · rcases List.mem_cons.mp hq with hq0 | hq0
            · rw [hq0] at hq2
              exact .inl (.inr hq2)
            · exact .inr ⟨q, hq0, hq1, hq2⟩
      · intro e he
        rcases i3 e he with ⟨e1, he1, hn1, hs1⟩ | ⟨hnone1, hs1⟩
        · rcases m3 e1 he1 with ⟨e0, he0, hn0, hs0⟩ | ⟨hnone0, hmem0, hs0⟩
          · left
            refine ⟨e0, he0, hn0.trans hn1, ?_⟩
            rw [hs1, hs0, hn1, contribs_cons, List.append_assoc]
            by_cases hm : e.name ∈ p.2.1.2.1
            · simp [hm, hon]
            · simp [hm, hon]
          · right
            have hne : e.name ∈ p.2.1.2.1 := by rw [← hn1]; exact hmem0
            refine ⟨?_, ?_⟩
            · intro e0 h0
              rw [← hn1]
              exact hnone0 e0 h0
            · rw [hs1, hs0, contribs_cons, if_pos (by simp [hon, hne])]
        · right
          have hno : ¬((∃ e0 ∈ acc, e0.name = e.name) ∨ e.name ∈ p.2.1.2.1) := by
            intro h
            obtain ⟨e2, he2, hn2⟩ := (m2 e.name).mpr h
            exact hnone1 e2 he2 hn2
          have hnoacc : ∀ e0 ∈ acc, e0.name ≠ e.name := by
            intro e0 h0 hn
            exact hno (.inl ⟨e0, h0, hn⟩)
          have hnm : e.name ∉ p.2.1.2.1 := fun h => hno (.inr h)
          refine ⟨hnoacc, ?_⟩
          rw [hs1, contribs_cons, if_neg (by simp [hnm])]
          simp
    · rw [if_neg hon]
      have hoff : p.2.1.1 = false := by
        cases hb : p.2.1.1
        · rfl
        · exact absurd hb hon
      obtain ⟨i1, i2, i3⟩ := ih acc
        (fun q hq hq1 => hnd q (List.mem_cons_of_mem p hq) hq1) hacc
      refine ⟨i1, ?_, ?_⟩
      · intro n
        rw [i2 n]
        constructor
        · rintro (h | ⟨q, hq, hq1, hq2⟩)
          · exact .inl h
          · exact .inr ⟨q, List.mem_cons_of_mem p hq, hq1, hq2⟩
        · rintro (h | ⟨q, hq, hq1, hq2⟩)
          · exact .inl h
          · rcases List.mem_cons.mp hq with hq0 | hq0
            · rw [hq0] at hq1
              exact absurd hq1 hon
            · exact .inr ⟨q, hq0, hq1, hq2⟩
      · intro e he
        rcases i3 e he with ⟨e0, he0, hn0, hs0⟩ | ⟨hnone0, hs0⟩
        · left
          refine ⟨e0, he0, hn0, ?_⟩
          rw [hs0, contribs_cons, if_neg (by simp [hoff])]
          simp
        · right
          refine ⟨hnone0, ?_⟩
          rw [hs0, contribs_cons, if_neg (by simp [hoff])]
          simp

/-- Strengthening of `addCfgFold_shape`: a config-injected entry is one
whose name no accumulator entry carried. -/
theorem addCfgFold_fresh (names : List String) (acc : List DbEntry) (e : DbEntry)
    (he : e ∈ names.foldl (fun a m => if a.any (fun e2 => e2.name = m) then a
        else a ++ [{ name := m, shards := ["config"] }]) acc) :
    e ∈ acc ∨ (e.name ∈ names ∧ e.shards = ["config"] ∧ ∀ e0 ∈ acc, e0.name ≠ e.name) := by
  induction names generalizing acc with
  | nil => exact .inl he
  | cons m ms ih =>
    rw [List.foldl_cons] at he
    rcases ih _ he with hx | ⟨hn, hs, hfresh⟩
    · by_cases h : acc.any (fun e2 => e2.name = m) = true
      · rw [if_pos h] at hx
        exact .inl hx
      · rw [if_neg h] at hx
        rcases List.mem_append.mp hx with h2 | h2
        · exact .inl h2
        · simp only [List.mem_singleton] at h2
          have hname : e.name = m := by rw [h2]
          have hshards : e.shards = ["config"] := by rw [h2]
          refine .inr ⟨by simp [hname], hshards, ?_⟩
          intro e0 h0 hn0
          apply h
          refine List.any_eq_true.mpr ⟨e0, h0, ?_⟩
          simp only [decide_eq_true_eq]
          rw [hn0, hname]
    · refine .inr ⟨List.mem_cons_of_mem m hn, hs, ?_⟩
      intro e0 h0
      apply hfresh e0
      by_cases h : acc.any (fun e2 => e2.name = m) = true
      · rw [if_pos h]
        exact h0
      · rw [if_neg h]
        exact List.mem_append.mpr (.inl h0)

theorem addConfigDbs_fresh (acc : List DbEntry) (e : DbEntry) (he : e ∈ addConfigDbs acc) :
    e ∈ acc ∨ (e.name ∈ configDbNames ∧ e.shards = ["config"]
      ∧ ∀ e0 ∈ acc, e0.name ≠ e.name) :=
  addCfgFold_fresh configDbNames acc e he

/-- Claim C1, amended: for every set of shard records in the metadata, with
any mix of reachable and unreachable shards, both fan-out list endpoints
merge by set-union keyed by name over the reachable shards' results, and
each merged database name carries exactly the identifiers of the reachable
shards whose listing contained it, in shard order; an unreachable shard
contributes an error entry and no data.  The one deviation from the claim as
written is that the merged database list (not the collection list)
additionally always carries the config-server databases admin, config and
local, attributed to the pseudo-shard "config" exactly when no reachable
shard contributed them. -/
theorem c1_fanout_merge
    (w : World) (shards : List ShardRec) (db : String)
    (hshards : w.prim.configShardsOp = .ok shards)
    (hnd : ∀ p ∈ dbProbes w shards, p.2.1.1 = true → p.2.1.2.1.Nodup) :
    ((listAvailableDatabasesHandler w).1 = (200, .obj [
        ("total_shards", .num shards.length),
        ("online_shards", .num ((dbProbes w shards).countP (fun p => p.2.1.1))),
        ("databases", .arr ((mergedDatabases w shards).map dbEntryJson)),
        ("shard_details", .arr ((dbProbes w shards).map (fun p =>
          shardDbResultJson p.1.id p.2.1.1 p.2.1.2.1 p.2.1.2.2)))]))
    ∧ ((listAvailableCollectionsHandler w db).1 = (200, .obj [
        ("database", .str db),
        ("collections", .arr ((mergedCollections w db shards).map .str)),
        ("total_shards", .num shards.length),
        ("online_shards", .num ((collProbes w db shards).countP (fun p => p.2.1.1))),
        ("shard_details", .arr ((collProbes w db shards).map (fun p =>
          shardCollResultJson p.1.id p.2.1.1 p.2.1.2.1 p.2.1.2.2)))]))
    ∧ (∀ n, (∃ e ∈ mergedDatabases w shards, e.name = n) ↔
        ((∃ p ∈ dbProbes w shards, p.2.1.1 = true ∧ n ∈ p.2.1.2.1) ∨ n ∈ configDbNames))
    ∧ (∀ e ∈ mergedDatabases w shards,
        e.shards = contribs (dbProbes w shards) e.name
        ∨ (e.shards = ["config"] ∧ e.name ∈ configDbNames
            ∧ contribs (dbProbes w shards) e.name = []))
    ∧ (∀ c, c ∈ mergedCollections w db shards ↔
        ∃ p ∈ collProbes w db shards, p.2.1.1 = true ∧ c ∈ p.2.1.2.1)
    ∧ (∀ s ∈ shards, (probeShardDbs w s).1.1 = false →
        (probeShardDbs w s).1.2.1 = [] ∧ (probeShardDbs w s).1.2.2 ≠ none)
    ∧ (∀ s ∈ shards, (probeShardColls w db s).1.1 = false →
        (probeShardColls w db s).1.2.1 = [] ∧ (probeShardColls w db s).1.2.2 ≠ none) := by
  obtain ⟨h1, h2, h3⟩ := foldMerge_spec (dbProbes w shards) [] hnd (by simp)
  refine ⟨?_, ?_, ?_, ?_, ?_, ?_, ?_⟩
  · simp [listAvailableDatabasesHandler, hshards]
  · simp [listAvailableCollectionsHandler, hshards]
  · intro n
    unfold mergedDatabases
    rw [addConfigDbs_names, h2 n]
    simp
  · intro e he
    unfold mergedDatabases at he
    rcases addConfigDbs_fresh _ e he with hin | ⟨hcn, hcs, hfresh⟩
    · rcases h3 e hin with ⟨e0, he0, _⟩ | ⟨_, hs⟩
      · simp at he0
      · exact .inl hs
    · right
      refine ⟨hcs, hcn, ?_⟩
      apply contribs_eq_nil
      intro p hp hcontr
      obtain ⟨e2, he2, hn2⟩ := (h2 e.name).mpr (.inr ⟨p, hp, hcontr⟩)
      exact hfresh e2 he2 hn2
  · intro c
    constructor
    · intro hc
      unfold mergedCollections at hc
      rw [mem_sortedSetOf] at hc
      obtain ⟨l, hl, hcl⟩ := List.mem_flatten.mp hc
      obtain ⟨p, hp, hpl⟩ := List.mem_map.mp hl
      by_cases hon : p.2.1.1 = true
      · refine ⟨p, hp, hon, ?_⟩
        rw [hpl]
        exact hcl
      · exfalso
        obtain ⟨s, hs, hps⟩ := List.mem_map.mp hp
        have hoff : (probeShardColls w db s).1.1 = false := by
          cases hxx : (probeShardColls w db s).1.1
          · rfl
          · exfalso
            apply hon
            rw [← hps]
            exact hxx
        have hempty := (probeShardColls_offline w db s hoff).1
        rw [← hps] at hpl
        rw [← hpl] at hcl
        rw [hempty] at hcl
        simp at hcl
    · rintro ⟨p, hp, hon, hc⟩
      unfold mergedCollections
      rw [mem_sortedSetOf]
      exact List.mem_flatten.mpr ⟨p.2.1.2.1, List.mem_map.mpr ⟨p, hp, rfl⟩, hc⟩
  · intro s hs hoff
    obtain ⟨hempty, m, hm⟩ := probeShardDbs_offline w s hoff
    refine ⟨hempty, ?_⟩
    rw [hm]
    simp
  · intro s hs hoff
    obtain ⟨hempty, m, hm⟩ := probeShardColls_offline w db s hoff
    refine ⟨hempty, ?_⟩
    rw [hm]
    simp

/-- Claim C1 as stated is false at a concrete two-shard world: with only
shard A reachable and A holding exactly the database mydb, the merged
database list is not exactly A's contents — the names admin, config and
local are also present, attributed to "config", which is not a reachable
shard's contribution. -/
theorem c1_fanout_merge_counterexample :
    bodyField (listAvailableDatabasesHandler twoShardWorld).1 "databases" =
      some (Json.arr [
        Json.obj [("name", Json.str "mydb"), ("shards", Json.arr [Json.str "shardA"])],
        Json.obj [("name", Json.str "admin"), ("shards", Json.arr [Json.str "config"])],
        Json.obj [("name", Json.str "config"), ("shards", Json.arr [Json.str "config"])],
        Json.obj [("name", Json.str "local"), ("shards", Json.arr [Json.str "config"])]])
    ∧ "admin" ∉ viewA.dbNames :=
  ⟨rfl, by decide⟩

/-- Closed instance of the amended C1 theorem at the three-shard world,
where reachable shards A and C both hold mydb and shard B is unreachable:
the merged entry for mydb carries both contributing identifiers, the second
appended to the first shard's entry by the append branch of the merge
loop. -/
theorem c1_fanout_merge_witness :
    (∀ n, (∃ e ∈ mergedDatabases threeShardWorld [shardA, shardB, shardC], e.name = n) ↔
        ((∃ p ∈ dbProbes threeShardWorld [shardA, shardB, shardC],
            p.2.1.1 = true ∧ n ∈ p.2.1.2.1) ∨ n ∈ configDbNames))
    ∧ (∀ e ∈ mergedDatabases threeShardWorld [shardA, shardB, shardC],
        e.shards = contribs (dbProbes threeShardWorld [shardA, shardB, shardC]) e.name
        ∨ (e.shards = ["config"] ∧ e.name ∈ configDbNames
            ∧ contribs (dbProbes threeShardWorld [shardA, shardB, shardC]) e.name = []))
    ∧ (∀ c, c ∈ mergedCollections threeShardWorld "mydb" [shardA, shardB, shardC] ↔
        ∃ p ∈ collProbes threeShardWorld "mydb" [shardA, shardB, shardC],
          p.2.1.1 = true ∧ c ∈ p.2.1.2.1)
    ∧ mergedDatabases threeShardWorld [shardA, shardB, shardC] = [
        { name := "mydb", shards := ["shardA", "shardC"] },
        { name := "zoo", shards := ["shardC"] },
        { name := "admin", shards := ["config"] },
        { name := "config", shards := ["config"] },
        { name := "local", shards := ["config"] }] :=
  ⟨(c1_fanout_merge threeShardWorld [shardA, shardB, shardC] "mydb"
      rfl (by decide)).2.2.1,
   (c1_fanout_merge threeShardWorld [shardA, shardB, shardC] "mydb"
      rfl (by decide)).2.2.2.1,
   (c1_fanout_merge threeShardWorld [shardA, shardB, shardC] "mydb"
      rfl (by decide)).2.2.2.2.1,
   rfl⟩

/-- Claim C2, amended: for every fan-out request a failed shard contributes
an error entry and is excluded from the merged view, and the overall
response is a success whenever the shard metadata could be read; the total
and online shard counts are always reported, but the offline count is
reported only by the `/shards` endpoint (on the two availability endpoints
it is derivable as total minus online yet not present in the response). -/
theorem c2_fanout_failure_policy (w : World) (shards : List ShardRec) (db : String)
    (hshards : w.prim.configShardsOp = .ok shards) :
    ((listShardsHandler w).1.1 = 200)
    ∧ ((listAvailableDatabasesHandler w).1.1 = 200)
    ∧ ((listAvailableCollectionsHandler w db).1.1 = 200)
    ∧ (∃ onl off : Int,
        bodyField (listShardsHandler w).1 "total_shards" = some (.num shards.length)
        ∧ bodyField (listShardsHandler w).1 "online_shards" = some (.num onl)
        ∧ bodyField (listShardsHandler w).1 "offline_shards" = some (.num off)
        ∧ onl + off = shards.length)
    ∧ (bodyField (listAvailableDatabasesHandler w).1 "total_shards" = some (.num shards.length)
        ∧ ∃ onl : Int,
          bodyField (listAvailableDatabasesHandler w).1 "online_shards" = some (.num onl))
    ∧ (bodyField (listAvailableCollectionsHandler w db).1 "total_shards" =
          some (.num shards.length)
        ∧ ∃ onl : Int,
          bodyField (listAvailableCollectionsHandler w db).1 "online_shards" = some (.num onl))
    ∧ (∀ s ∈ shards, (probeShardDbs w s).1.1 = false →
        (probeShardDbs w s).1.2.1 = [] ∧ (probeShardDbs w s).1.2.2 ≠ none)
    ∧ (∀ s ∈ shards, (probeShardPing w s).1.1 = false → (probeShardPing w s).1.2 ≠ none)
    ∧ (∀ e ∈ mergedDatabases w shards, ∀ sid ∈ e.shards,
        sid = "config" ∨ ∃ s ∈ shards, (probeShardDbs w s).1.1 = true ∧ sid = s.id)
    ∧ (∀ c ∈ mergedCollections w db shards,
        ∃ s ∈ shards, (probeShardColls w db s).1.1 = true
          ∧ c ∈ (probeShardColls w db s).1.2.1) := by
  refine ⟨by simp [listShardsHandler, hshards],
    by simp [listAvailableDatabasesHandler, hshards],
    by simp [listAvailableCollectionsHandler, hshards], ?_, ?_, ?_, ?_, ?_, ?_, ?_⟩
  · refine ⟨((shards.map (fun s => (s, probeShardPing w s))).countP (fun p => p.2.1.1) : Int),
      ((shards.map (fun s => (s, probeShardPing w s))).countP (fun p => !p.2.1.1) : Int),
      ?_, ?_, ?_, ?_⟩
    · simp [listShardsHandler, hshards, bodyField, jget]
    · simp [listShardsHandler, hshards, bodyField, jget]
    · simp [listShardsHandler, hshards, bodyField, jget]
    · have hcount := countP_add_countP_not (shards.map (fun s => (s, probeShardPing w s)))
        (fun p => p.2.1.1)
      have hlen : (shards.map (fun s => (s, probeShardPing w s))).length = shards.length :=
        List.length_map _ _
      omega
  · constructor
    · simp [listAvailableDatabasesHandler, hshards, bodyField, jget]
    · exact ⟨((dbProbes w shards).countP (fun p => p.2.1.1) : Int),
        by simp [listAvailableDatabasesHandler, hshards, bodyField, jget]⟩
  · constructor
    · simp [listAvailableCollectionsHandler, hshards, bodyField, jget]
    · exact ⟨((collProbes w db shards).countP (fun p => p.2.1.1) : Int),
        by simp [listAvailableCollectionsHandler, hshards, bodyField, jget]⟩
  · intro s _ hoff
    obtain ⟨hempty, m, hm⟩ := probeShardDbs_offline w s hoff
    exact ⟨hempty, by rw [hm]; simp⟩
  · intro s _ hoff
    obtain ⟨m, hm⟩ := probeShardPing_offline w s hoff
    rw [hm]
    simp
  · intro e he sid hsid
    unfold mergedDatabases at he
    rcases addConfigDbs_shape _ _ he with hacc | hcfg
    · rcases foldMergeProbes_shards (dbProbes w shards) [] e hacc sid hsid with
        ⟨e0, he0, _⟩ | ⟨p, hp, hon, hid⟩
      · simp at he0
      · obtain ⟨s, hs, hps⟩ := List.mem_map.mp hp
        rw [← hps] at hon hid
        exact .inr ⟨s, hs, hon, hid⟩
    · rw [hcfg.2] at hsid
      simp at hsid
      exact .inl hsid
  · intro c hc
    unfold mergedCollections at hc
    rw [mem_sortedSetOf] at hc
    obtain ⟨l, hl, hcl⟩ := List.mem_flatten.mp hc
    obtain ⟨p, hp, hpl⟩ := List.mem_map.mp hl
    obtain ⟨s, hs, hps⟩ := List.mem_map.mp hp
    by_cases hon : (probeShardColls w db s).1.1 = true
    · refine ⟨s, hs, hon, ?_⟩
      rw [← hps] at hpl
      rw [← hpl] at hcl
      exact hcl
    · exfalso
      have hoff := probeShardColls_offline w db s (by
        cases hxx : (probeShardColls w db s).1.1
        · rfl
        · exact absurd hxx hon)
      rw [← hps] at hpl
      rw [← hpl] at hcl
      rw [hoff.1] at hcl
      simp at hcl

/-- Claim C2 as stated is false at a concrete two-shard world: the
`/databases/available` and `/databases/<db>/collections/available` responses
carry no offline shard count at all. -/
theorem c2_fanout_failure_policy_counterexample :
    bodyField (listAvailableDatabasesHandler twoShardWorld).1 "offline_shards" = none
    ∧ bodyField (listAvailableCollectionsHandler twoShardWorld "mydb").1 "offline_shards" = none
    ∧ bodyField (listShardsHandler twoShardWorld).1 "offline_shards" = some (Json.num 1) :=
  ⟨rfl, rfl, rfl⟩

/-- Closed instance of the amended C2 theorem at the two-shard world. -/
theorem c2_fanout_failure_policy_witness :
    (listShardsHandler twoShardWorld).1.1 = 200
    ∧ (listAvailableDatabasesHandler twoShardWorld).1.1 = 200
    ∧ (∃ onl off : Int,
        bodyField (listShardsHandler twoShardWorld).1 "total_shards" =
          some (.num ([shardA, shardB].length))
        ∧ bodyField (listShardsHandler twoShardWorld).1 "online_shards" = some (.num onl)
        ∧ bodyField (listShardsHandler twoShardWorld).1 "offline_shards" = some (.num off)
        ∧ onl + off = ([shardA, shardB] : List ShardRec).length) :=
  ⟨(c2_fanout_failure_policy twoShardWorld [shardA, shardB] "mydb" rfl).1,
   (c2_fanout_failure_policy twoShardWorld [shardA, shardB] "mydb" rfl).2.1,
   (c2_fanout_failure_policy twoShardWorld [shardA, shardB] "mydb" rfl).2.2.2.1⟩

theorem jget_some_nonempty (fs : List (String × Json)) (k : String) (v : Json)
    (h : jget fs k = some v) : fs.isEmpty = false := by
  cases fs with
  | nil => simp [jget] at h
  | cons p tl => rfl

/-- Claim C7: error responses are JSON objects with an error field and the
status encodes the failure class — 400 for malformed input (missing body,
missing required fields, undecodable extended JSON), 500 for a driver
failure carrying the driver's message, 401 for authentication failure, and
404 with a message naming the identifier when the requested shard is absent
from the shard metadata. -/
theorem c7_error_status_taxonomy (w : World) (sid : String) (fs : List (String × Json)) :
    (queryHandler w none = (400, errBody "Request body required"))
    ∧ (jTruthy (Json.obj fs) = true → jget fs "database" = none →
        queryHandler w (some (.obj fs)) = (400, errBody "database and collection are required"))
    ∧ (∀ dbv collv fj, jget fs "database" = some (.str dbv) →
        jget fs "collection" = some (.str collv) → dbv ≠ "" → collv ≠ "" →
        jget fs "filter" = some fj → decode fj = none →
        queryHandler w (some (.obj fs)) =
          (400, errBody "Query error: extended JSON decode failed"))
    ∧ (∀ dbv collv e, jget fs "database" = some (.str dbv) →
        jget fs "collection" = some (.str collv) → dbv ≠ "" → collv ≠ "" →
        jget fs "filter" = none → jget fs "limit" = none → jget fs "skip" = none →
        w.prim.findOp dbv collv (.doc []) (jget fs "projection") (jget fs "sort") = .error e →
        queryHandler w (some (.obj fs)) = (500, errBody e))
    ∧ (∀ key handler, (key = none ∨ ∀ k, key = some k → k ≠ w.apiKey) →
        requireApiKey w.apiKey key handler =
          (401, errBody "Unauthorized - Invalid or missing API key"))
    ∧ (w.prim.configShardFindOneOp sid = .ok none →
        (queryShardHandler w sid none).1 =
          (404, errBody ("Shard \x27" ++ sid ++ "\x27 not found"))) := by
  refine ⟨rfl, ?_, ?_, ?_, fun key handler => requireApiKey_reject w.apiKey key handler, ?_⟩
  · intro ht hdb
    simp only [jTruthy] at ht
    simp [queryHandler, ht, hdb, jTruthy]
  · intro dbv collv fj hdb hcl hdbv hclv hfilter hdec
    have hne : fs.isEmpty = false := jget_some_nonempty fs "database" _ hdb
    simp [queryHandler, hne, hdb, hcl, hfilter, hdec, hdbv, hclv, jTruthy]
  · intro dbv collv e hdb hcl hdbv hclv hfilter hlimit hskip hfind
    have hne : fs.isEmpty = false := jget_some_nonempty fs "database" _ hdb
    simp [queryHandler, hne, hdb, hcl, hfilter, hlimit, hskip, hfind, hdbv, hclv,
      jTruthy, skipFun, limitFun, decode, hasKey, jget, decodeFields]
  · intro h404
    simp [queryShardHandler, h404]

/-- Closed instance of the C7 theorem: each failure class observed at a
concrete world and request. -/
theorem c7_error_status_taxonomy_witness :
    (queryHandler errWorld none = (400, errBody "Request body required"))
    ∧ (queryHandler errWorld (some (.obj [("collection", Json.str "c")])) =
        (400, errBody "database and collection are required"))
    ∧ (queryHandler errWorld (some (.obj [("database", Json.str "d"),
        ("collection", Json.str "c"),
        ("filter", Json.obj [("$oid", Json.str "zz")])])) =
        (400, errBody "Query error: extended JSON decode failed"))
    ∧ (queryHandler errWorld (some (.obj [("database", Json.str "d"),
        ("collection", Json.str "c")])) = (500, errBody "server down"))
    ∧ (requireApiKey errWorld.apiKey (some "bad") (fun _ => (200, Json.null)) =
        (401, errBody "Unauthorized - Invalid or missing API key"))
    ∧ ((queryShardHandler errWorld "ghost" none).1 =
        (404, errBody ("Shard \x27ghost\x27 not found"))) :=
  ⟨(c7_error_status_taxonomy errWorld "ghost" []).1,
   (c7_error_status_taxonomy errWorld "ghost" [("collection", Json.str "c")]).2.1
     (by decide) rfl,
   (c7_error_status_taxonomy errWorld "ghost" [("database", Json.str "d"),
       ("collection", Json.str "c"), ("filter", Json.obj [("$oid", Json.str "zz")])]).2.2.1
     "d" "c" (Json.obj [("$oid", Json.str "zz")]) rfl rfl (by decide) (by decide) rfl rfl,
   (c7_error_status_taxonomy errWorld "ghost" [("database", Json.str "d"),
       ("collection", Json.str "c")]).2.2.2.1
     "d" "c" "server down" rfl rfl (by decide) (by decide) rfl rfl rfl rfl,
   (c7_error_status_taxonomy errWorld "ghost" []).2.2.2.2.1 (some "bad")
     (fun _ => (200, Json.null)) (Or.inr (fun k hk => by cases hk; decide)),
   (c7_error_status_taxonomy errWorld "ghost" []).2.2.2.2.2 rfl⟩

theorem decodeList_length (xs : List Json) (vs : List BVal)
    (h : decodeList xs = some vs) : vs.length = xs.length := by
  induction xs generalizing vs with
  | nil =>
    simp [decodeList] at h
    rw [h]
    rfl
  | cons x tl ih =>
    rw [decodeList] at h
    cases hx : decode x with
    | none => rw [hx] at h; simp at h
    | some v =>
      rw [hx] at h
      cases htl : decodeList tl with
      | none => rw [htl] at h; simp at h
      | some ws =>
        rw [htl] at h
        simp only at h
        injection h with h2
        rw [← h2]
        simp [ih ws htl]

/-- Claim C8, amended: a single non-empty document payload is normalized to
a one-element batch and yields `inserted_count` 1; a non-empty sequence of N
documents yields `inserted_count` N (the driver returns one generated
identifier per document).  An empty batch or empty single document is
rejected as malformed input before dispatch, because the presence check
treats falsy values as missing. -/
theorem c8_insert_count (w : World) (fs : List (String × Json)) (dbv collv : String)
    (hdb : jget fs "database" = some (.str dbv)) (hcl : jget fs "collection" = some (.str collv))
    (hdbv : dbv ≠ "") (hclv : collv ≠ "") :
    (∀ dfs bdocs ids, jget fs "documents" = some (.obj dfs) → dfs.isEmpty = false →
      decodeList [Json.obj dfs] = some bdocs →
      w.prim.insertManyOp dbv collv bdocs
        (jTruthy ((jget fs "ordered").getD (.bool true))) = .ok ids →
      ids.length = bdocs.length →
      bdocs.length = 1
      ∧ (insertHandler w (some (.obj fs))).1 = 200
      ∧ bodyField (insertHandler w (some (.obj fs))) "inserted_count" = some (.num 1))
    ∧ (∀ xs bdocs ids, jget fs "documents" = some (.arr xs) → xs.isEmpty = false →
      decodeList xs = some bdocs →
      w.prim.insertManyOp dbv collv bdocs
        (jTruthy ((jget fs "ordered").getD (.bool true))) = .ok ids →
      ids.length = bdocs.length →
      bdocs.length = xs.length
      ∧ (insertHandler w (some (.obj fs))).1 = 200
      ∧ bodyField (insertHandler w (some (.obj fs))) "inserted_count" =
          some (.num xs.length)) := by
  have htfs : jTruthy (Json.obj fs) = !fs.isEmpty := rfl
  have htd : jTruthy (Json.str dbv) = true := by simp [jTruthy, hdbv]
  have htc : jTruthy (Json.str collv) = true := by simp [jTruthy, hclv]
  constructor
  · intro dfs bdocs ids hdocs hdfs hdec hins hlen
    have hne : fs.isEmpty = false := jget_some_nonempty fs "database" _ hdb
    have hb1 : bdocs.length = 1 := decodeList_length _ _ hdec
    have htdocs : jTruthy (Json.obj dfs) = true := by simp [jTruthy, hdfs]
    refine ⟨hb1, ?_, ?_⟩
    · simp [insertHandler, htfs, hne, hdb, hcl, hdocs, htd, htc, htdocs, hdec, hins]
    · simp [insertHandler, htfs, hne, hdb, hcl, hdocs, htd, htc, htdocs, hdec, hins,
        bodyField, jget]
      omega
  · intro xs bdocs ids hdocs hxs hdec hins hlen
    have hne : fs.isEmpty = false := jget_some_nonempty fs "database" _ hdb
    have hbn : bdocs.length = xs.length := decodeList_length _ _ hdec
    have htdocs : jTruthy (Json.arr xs) = true := by simp [jTruthy, hxs]
    refine ⟨hbn, ?_, ?_⟩
    · simp [insertHandler, htfs, hne, hdb, hcl, hdocs, htd, htc, htdocs, hdec, hins]
    · simp [insertHandler, htfs, hne, hdb, hcl, hdocs, htd, htc, htdocs, hdec, hins,
        bodyField, jget]
      omega

/-- Claim C8 as stated is false at the boundary case: a sequence of zero
documents is a valid payload, yet the response is a 400 error with no
`inserted_count`, because the falsy empty list fails the presence check. -/
theorem c8_insert_count_counterexample :
    insertHandler demoWorld (some (.obj [("database", Json.str "d"),
        ("collection", Json.str "c"), ("documents", Json.arr [])])) =
      (400, errBody "database, collection, and documents are required")
    ∧ bodyField (insertHandler demoWorld (some (.obj [("database", Json.str "d"),
        ("collection", Json.str "c"), ("documents", Json.arr [])]))) "inserted_count" = none :=
  ⟨rfl, rfl⟩

/-- Closed instance of the amended C8 theorem: one single document and a
three-document batch against a driver that returns one identifier per
document. -/
theorem c8_insert_count_witness :
    (([BVal.doc [("a", BVal.num 1)]] : List BVal).length = 1
      ∧ (insertHandler demoWorld (some (.obj [("database", Json.str "d"),
          ("collection", Json.str "c"),
          ("documents", Json.obj [("a", Json.num 1)])]))).1 = 200
      ∧ bodyField (insertHandler demoWorld (some (.obj [("database", Json.str "d"),
          ("collection", Json.str "c"),
          ("documents", Json.obj [("a", Json.num 1)])]))) "inserted_count" =
        some (.num 1))
    ∧ (([BVal.num 1, BVal.num 2, BVal.num 3] : List BVal).length =
        ([Json.num 1, Json.num 2, Json.num 3] : List Json).length
      ∧ (insertHandler demoWorld (some (.obj [("database", Json.str "d"),
          ("collection", Json.str "c"),
          ("documents", Json.arr [Json.num 1, Json.num 2, Json.num 3])]))).1 = 200
      ∧ bodyField (insertHandler demoWorld (some (.obj [("database", Json.str "d"),
          ("collection", Json.str "c"),
          ("documents", Json.arr [Json.num 1, Json.num 2, Json.num 3])])))
          "inserted_count" =
        some (.num ([Json.num 1, Json.num 2, Json.num 3] : List Json).length)) :=
  ⟨(c8_insert_count demoWorld [("database", Json.str "d"), ("collection", Json.str "c"),
      ("documents", Json.obj [("a", Json.num 1)])] "d" "c" rfl rfl (by decide) (by decide)).1
    [("a", Json.num 1)] [BVal.doc [("a", BVal.num 1)]]
    [BVal.oid "0123456789abcdef01234567"] rfl rfl rfl rfl rfl,
   (c8_insert_count demoWorld [("database", Json.str "d"), ("collection", Json.str "c"),
      ("documents", Json.arr [Json.num 1, Json.num 2, Json.num 3])] "d" "c"
      rfl rfl (by decide) (by decide)).2
    [Json.num 1, Json.num 2, Json.num 3] [BVal.num 1, BVal.num 2, BVal.num 3]
    [BVal.oid "0123456789abcdef01234567", BVal.oid "0123456789abcdef01234567",
     BVal.oid "0123456789abcdef01234567"] rfl rfl rfl rfl rfl⟩

/-- Claim C10: a request body whose `limit` is 0 applies no limit to the
cursor, so all documents matching the filter (after any skip) are returned
rather than zero documents; a `skip` of 0 is likewise not applied; an
absent `limit` defaults to 100; and a truthy integer limit caps the result
at its absolute value.  This holds for `/query` and for
`/shard/<shard_id>/query`. -/
theorem c10_zero_limit_not_applied (w : World) (fs : List (String × Json)) (dbv collv : String)
    (docs : List BVal)
    (hdb : jget fs "database" = some (.str dbv)) (hcl : jget fs "collection" = some (.str collv))
    (hdbv : dbv ≠ "") (hclv : collv ≠ "")
    (hfilter : jget fs "filter" = none)
    (hfind : w.prim.findOp dbv collv (.doc []) (jget fs "projection") (jget fs "sort") = .ok docs) :
    (jget fs "limit" = some (.num 0) → jget fs "skip" = none →
      queryHandler w (some (.obj fs)) = (200, .obj [("database", .str dbv),
        ("collection", .str collv), ("count", .num docs.length),
        ("documents", .arr (encodeList docs))]))
    ∧ (jget fs "limit" = some (.num 0) → jget fs "skip" = some (.num 0) →
      queryHandler w (some (.obj fs)) = (200, .obj [("database", .str dbv),
        ("collection", .str collv), ("count", .num docs.length),
        ("documents", .arr (encodeList docs))]))
    ∧ (jget fs "limit" = none → jget fs "skip" = none →
      queryHandler w (some (.obj fs)) = (200, .obj [("database", .str dbv),
        ("collection", .str collv), ("count", .num (docs.take 100).length),
        ("documents", .arr (encodeList (docs.take 100)))]))
    ∧ (∀ n : Int, n ≠ 0 → jget fs "limit" = some (.num n) → jget fs "skip" = none →
      queryHandler w (some (.obj fs)) = (200, .obj [("database", .str dbv),
        ("collection", .str collv), ("count", .num (docs.take n.natAbs).length),
        ("documents", .arr (encodeList (docs.take n.natAbs)))]))
    ∧ (∀ sid shard view, w.prim.configShardFindOneOp sid = .ok (some shard) →
        w.net (shardUri w.mongoUri shard.host "5000") = .ok view →
        jget fs "limit" = some (.num 0) → jget fs "skip" = none →
        (queryShardHandler w sid (some (.obj fs))).1 = (200, .obj [("shard", .str sid),
          ("database", .str dbv), ("collection", .str collv),
          ("count", .num (view.findDocs dbv collv (.doc []) (jget fs "projection")
            (jget fs "sort")).length),
          ("documents", .arr (encodeList (view.findDocs dbv collv (.doc [])
            (jget fs "projection") (jget fs "sort"))))])) := by
  have hne : fs.isEmpty = false := jget_some_nonempty fs "database" _ hdb
  have hdecf : decode (Json.obj []) = some (BVal.doc []) := rfl
  refine ⟨?_, ?_, ?_, ?_, ?_⟩
  · intro hlimit hskip
    simp [queryHandler, hne, hdb, hcl, hfilter, hlimit, hskip, hfind, hdbv, hclv,
      jTruthy, skipFun, limitFun, hdecf]
  · intro hlimit hskip
    simp [queryHandler, hne, hdb, hcl, hfilter, hlimit, hskip, hfind, hdbv, hclv,
      jTruthy, skipFun, limitFun, hdecf]
  · intro hlimit hskip
    simp [queryHandler, hne, hdb, hcl, hfilter, hlimit, hskip, hfind, hdbv, hclv,
      jTruthy, skipFun, limitFun, hdecf]
  · intro n hn0 hlimit hskip
    simp [queryHandler, hne, hdb, hcl, hfilter, hlimit, hskip, hfind, hdbv, hclv,
      jTruthy, skipFun, limitFun, hn0, hdecf]
  · intro sid shard view hfindone hnet hlimit hskip
    simp [queryShardHandler, hfindone, hnet, hne, hdb, hcl, hfilter, hlimit, hskip,
      hdbv, hclv, jTruthy, skipFun, limitFun, hdecf, Except.map]

/-- Closed instance of the C10 theorem: a three-document collection queried
with limit 0 returns all three documents, with no limit it returns the
100-capped list, and the same holds against a named shard. -/
theorem c10_zero_limit_not_applied_witness :
    (queryHandler c10World (some (.obj [("database", Json.str "d"),
        ("collection", Json.str "c"), ("limit", Json.num 0)])) =
      (200, .obj [("database", .str "d"), ("collection", .str "c"),
        ("count", .num ([BVal.num 1, BVal.num 2, BVal.num 3] : List BVal).length),
        ("documents", .arr (encodeList [BVal.num 1, BVal.num 2, BVal.num 3]))]))
    ∧ ((queryShardHandler c10World "shardA" (some (.obj [("database", Json.str "d"),
        ("collection", Json.str "c"), ("limit", Json.num 0)]))).1 =
      (200, .obj [("shard", .str "shardA"), ("database", .str "d"), ("collection", .str "c"),
        ("count", .num (viewA.findDocs "d" "c" (.doc []) none none).length),
        ("documents", .arr (encodeList (viewA.findDocs "d" "c" (.doc []) none none)))])) :=
  ⟨(c10_zero_limit_not_applied c10World [("database", Json.str "d"),
      ("collection", Json.str "c"), ("limit", Json.num 0)] "d" "c"
      [BVal.num 1, BVal.num 2, BVal.num 3] rfl rfl (by decide) (by decide) rfl rfl).1 rfl rfl,
   (c10_zero_limit_not_applied c10World [("database", Json.str "d"),
      ("collection", Json.str "c"), ("limit", Json.num 0)] "d" "c"
      [BVal.num 1, BVal.num 2, BVal.num 3] rfl rfl (by decide) (by decide) rfl rfl).2.2.2.2
      "shardA" shardA viewA rfl rfl rfl rfl⟩

/-- Claim C9, amended: every shard probe opens a fresh direct connection to
the derived connection string, and explicitly closes it before the response
is produced when the probe succeeds; but when the probe's ping, list or
query operation fails — including the 400 paths of the single-shard query,
whose client is constructed before the body is read — no explicit close is
issued and the client object is abandoned to garbage collection.  No
per-shard connection is carried over: each probe's trace starts with its
own open event. -/
theorem c9_connection_lifecycle (w : World) (s : ShardRec) (sid : String) :
    (∀ v, w.net (shardUri w.mongoUri s.host "3000") = .ok v →
      (probeShardPing w s).2 = [.opened (shardUri w.mongoUri s.host "3000"),
        .closed (shardUri w.mongoUri s.host "3000")]
      ∧ (probeShardDbs w s).2 = [.opened (shardUri w.mongoUri s.host "3000"),
        .closed (shardUri w.mongoUri s.host "3000")])
    ∧ (∀ e, w.net (shardUri w.mongoUri s.host "3000") = .error e →
      (probeShardPing w s).2 = [.opened (shardUri w.mongoUri s.host "3000")]
      ∧ (probeShardDbs w s).2 = [.opened (shardUri w.mongoUri s.host "3000")])
    ∧ (∀ shard, w.prim.configShardFindOneOp sid = .ok (some shard) →
      (queryShardHandler w sid none).2 = [.opened (shardUri w.mongoUri shard.host "5000")])
    ∧ (∀ shard view dbv collv, w.prim.configShardFindOneOp sid = .ok (some shard) →
      w.net (shardUri w.mongoUri shard.host "5000") = .ok view → dbv ≠ "" → collv ≠ "" →
      (queryShardHandler w sid (some (.obj [("database", .str dbv),
        ("collection", .str collv)]))).2 =
        [.opened (shardUri w.mongoUri shard.host "5000"),
         .closed (shardUri w.mongoUri shard.host "5000")])
    ∧ (∀ shard e, w.prim.configShardFindOneOp sid = .ok (some shard) →
      w.net (shardUri w.mongoUri shard.host "5000") = .error e →
      (queryShardHandler w sid (some (.obj [("database", .str "d"),
        ("collection", .str "c")]))).2 =
        [.opened (shardUri w.mongoUri shard.host "5000")]) := by
  refine ⟨?_, ?_, ?_, ?_, ?_⟩
  · intro v hnet
    constructor
    · rw [probeShardPing_eq, hnet]
    · rw [probeShardDbs_eq, hnet]
  · intro e hnet
    constructor
    · rw [probeShardPing_eq, hnet]
    · rw [probeShardDbs_eq, hnet]
  · intro shard hfindone
    simp [queryShardHandler, hfindone]
  · intro shard view dbv collv hfindone hnet hdbv hclv
    have hdecf : decode (Json.obj []) = some (BVal.doc []) := rfl
    simp [queryShardHandler, hfindone, hnet, hdbv, hclv, jTruthy, jget,
      skipFun, limitFun, hdecf, Except.map]
  · intro shard e hfindone hnet
    have hdecf : decode (Json.obj []) = some (BVal.doc []) := rfl
    simp [queryShardHandler, hfindone, hnet, jTruthy, jget,
      skipFun, limitFun, hdecf, Except.map]

/-- Claim C9 as stated is false at the concrete two-shard world: the probe
of unreachable shard B opens its direct connection and the trace carries no
close event at all, so the connection is not explicitly closed when the
probe fails. -/
theorem c9_connection_lifecycle_counterexample :
    (probeShardDbs twoShardWorld shardB).2 =
      [ConnEvent.opened (shardUri "mongodb://cfg:27019" "rsB/b:27018" "3000")]
    ∧ ((probeShardDbs twoShardWorld shardB).2.all (fun ev =>
        match ev with
        | .closed _ => false
        | _ => true)) = true :=
  ⟨rfl, rfl⟩

/-- Closed instance of the amended C9 theorem: reachable shard A's probe
opens and closes; unreachable shard B's probe only opens; the single-shard
query against A closes before responding. -/
theorem c9_connection_lifecycle_witness :
    ((probeShardPing twoShardWorld shardA).2 =
      [.opened (shardUri "mongodb://cfg:27019" "rsA/a:27018,a2:27018" "3000"),
       .closed (shardUri "mongodb://cfg:27019" "rsA/a:27018,a2:27018" "3000")]
      ∧ (probeShardDbs twoShardWorld shardA).2 =
      [.opened (shardUri "mongodb://cfg:27019" "rsA/a:27018,a2:27018" "3000"),
       .closed (shardUri "mongodb://cfg:27019" "rsA/a:27018,a2:27018" "3000")])
    ∧ ((probeShardPing twoShardWorld shardB).2 =
      [.opened (shardUri "mongodb://cfg:27019" "rsB/b:27018" "3000")]
      ∧ (probeShardDbs twoShardWorld shardB).2 =
      [.opened (shardUri "mongodb://cfg:27019" "rsB/b:27018" "3000")])
    ∧ ((queryShardHandler twoShardWorld "shardA" (some (.obj [("database", .str "d"),
        ("collection", .str "c")]))).2 =
      [.opened (shardUri "mongodb://cfg:27019" "rsA/a:27018,a2:27018" "5000"),
       .closed (shardUri "mongodb://cfg:27019" "rsA/a:27018,a2:27018" "5000")]) :=
  ⟨(c9_connection_lifecycle twoShardWorld shardA "shardA").1 viewA rfl,
   (c9_connection_lifecycle twoShardWorld shardB "shardA").2.1 "connection refused" rfl,
   (c9_connection_lifecycle twoShardWorld shardA "shardA").2.2.2.1 shardA viewA "d" "c"
     rfl rfl (by decide) (by decide)⟩

end MongoBridge
